import Mathlib

set_option maxRecDepth 4000

/-!
Shallow embedding of the tool-orchestration core of the Flow-Agent repository
(`agents/stock_search_agent.py` and `core/query_parser.py`): Python strings are
Lean `String`s (worked on as `List Char`), JSON values are an inductive type,
`json.loads` is a total recursive-descent parser returning `Option`, code that
can raise returns `Except String`, and the LangGraph state machine is a
composition of per-node functions over an explicit state record with the
LLM / tool / SQL collaborators abstracted as oracle parameters.
-/

namespace FlowAgent

/-! ## Python string primitives -/

/-- Whitespace removed by Python `str.strip()` (the ASCII part; the
    repository's strings contain no exotic Unicode whitespace). -/
def isPyStripSpace (c : Char) : Bool :=
  c = ' ' || c = '\t' || c = '\n' || c = '\r' || c = '\x0b' || c = '\x0c'

/-- Characters matched by the regex class `\s` (ASCII part). -/
def isReSpace (c : Char) : Bool :=
  c = ' ' || c = '\t' || c = '\n' || c = '\r' || c = '\x0b' || c = '\x0c'

/-- Characters matched by the regex class `\w` / `[\w가-힣]` in this code base:
    ASCII alphanumerics, underscore, and Hangul syllables (U+AC00..U+D7A3).
    (Python's Unicode `\w` is wider, but only these scripts occur here.) -/
def isPyWordChar (c : Char) : Bool :=
  c.isAlphanum || c = '_' || (0xAC00 ≤ c.toNat && c.toNat ≤ 0xD7A3)

def pyStripList (cs : List Char) : List Char :=
  ((cs.dropWhile isPyStripSpace).reverse.dropWhile isPyStripSpace).reverse

/-- Python `str.strip()`. -/
def pyStrip (s : String) : String :=
  String.mk (pyStripList s.data)

/-- Python `str.lower()` (ASCII case mapping; Hangul is unaffected, as in
    Python). -/
def pyLowerChar (c : Char) : Char :=
  if 'A' ≤ c && c ≤ 'Z' then Char.ofNat (c.toNat + 32) else c

def pyLower (s : String) : String :=
  String.mk (s.data.map pyLowerChar)

/-- Python's substring test `needle in hay`. -/
def listContainsSub (needle : List Char) : List Char → Bool
  | [] => needle.isEmpty
  | c :: rest => needle.isPrefixOf (c :: rest) || listContainsSub needle rest

def strContainsSub (hay needle : String) : Bool :=
  listContainsSub needle.data hay.data

/-- `needle1` occurs in `hay` and `needle2` occurs after (not overlapping)
    that occurrence — the condition enforced by regex fragments of the form
    `lit1[^X]*lit2` inside a single character-class run. -/
def containsThen (needle1 needle2 : List Char) : List Char → Bool
  | [] => (needle1.isEmpty && needle2.isEmpty)
  | c :: rest =>
      if needle1.isPrefixOf (c :: rest) then
        listContainsSub needle2 ((c :: rest).drop needle1.length)
      else containsThen needle1 needle2 rest

/-- Python `'\n'`-split (keeps empty pieces, like `str.split('\n')`). -/
def splitNl : List Char → List (List Char)
  | [] => [[]]
  | c :: rest =>
      match splitNl rest with
      | [] => [[]]
      | l :: ls => if c = '\n' then [] :: l :: ls else (c :: l) :: ls

/-- Python `sep.join(pieces)`. -/
def pyJoin (sep : String) (pieces : List String) : String :=
  String.intercalate sep pieces

/-- Python `str.replace(old, new)` — replaces every occurrence, scanning left
    to right. -/
def pyReplaceList (old new : List Char) : List Char → List Char
  | [] => []
  | c :: rest =>
      if h : old ≠ [] ∧ old.isPrefixOf (c :: rest) then
        new ++ pyReplaceList old new ((c :: rest).drop old.length)
      else c :: pyReplaceList old new rest
  termination_by cs => cs.length
  decreasing_by
    · have hpos : 0 < old.length := List.length_pos.mpr h.1
      simp only [List.length_drop, List.length_cons]
      omega
    · simp

def pyReplace (s old new : String) : String :=
  String.mk (pyReplaceList old.data new.data s.data)

def digitsToNat (ds : List Char) : Nat :=
  ds.foldl (fun acc c => acc * 10 + (c.toNat - '0'.toNat)) 0

/-! ## JSON values and Python `json.loads` -/

/-- A JSON value as produced by Python's `json.loads`. Numeric literals keep
    their source lexeme (every number in the inputs relevant to the claims is
    a plain integer; no claim depends on float arithmetic). -/
inductive Json where
  | null
  | bool (b : Bool)
  | num (lex : String)
  | str (s : String)
  | arr (items : List Json)
  | obj (entries : List (String × Json))

mutual
/-- Structural equality of JSON values (models Python `==` on the decoded
    values for the hashable shapes the de-duplication step compares). -/
def jsonBeq : Json → Json → Bool
  | .null, .null => true
  | .bool a, .bool b => a = b
  | .num a, .num b => a = b
  | .str a, .str b => a = b
  | .arr a, .arr b => jsonListBeq a b
  | .obj a, .obj b => jsonObjBeq a b
  | _, _ => false

def jsonListBeq : List Json → List Json → Bool
  | [], [] => true
  | a :: as, b :: bs => jsonBeq a b && jsonListBeq as bs
  | _, _ => false

def jsonObjBeq : List (String × Json) → List (String × Json) → Bool
  | [], [] => true
  | (ka, va) :: as, (kb, vb) :: bs => ka = kb && jsonBeq va vb && jsonObjBeq as bs
  | _, _ => false
end

/-- Dictionary lookup `d[k]` / `d.get(k)`: entries produced by the loader are
    key-unique, so the first match is the value. -/
def objGet (j : Json) (k : String) : Option Json :=
  match j with
  | .obj entries => (entries.find? (fun e => e.1 = k)).map (·.2)
  | _ => none

/-- Python `k in d`. -/
def objHasKey (j : Json) (k : String) : Bool :=
  (objGet j k).isSome

/-- Dictionary assignment `d[k] = v`: replaces the value in place when the key
    exists (Python dicts keep the original insertion position), else appends. -/
def objInsert (entries : List (String × Json)) (k : String) (v : Json) :
    List (String × Json) :=
  match entries with
  | [] => [(k, v)]
  | (k0, v0) :: rest =>
      if k0 = k then (k0, v) :: rest else (k0, v0) :: objInsert rest k v

/-- Dictionary assignment on a JSON value (used for `tool_call['args'] = …`). -/
def objSet (j : Json) (k : String) (v : Json) : Json :=
  match j with
  | .obj entries => .obj (objInsert entries k v)
  | other => other

/-- Whitespace skipped between JSON tokens by Python's `json` module. -/
def jsonSkipWs (cs : List Char) : List Char :=
  cs.dropWhile (fun c => c = ' ' || c = '\t' || c = '\n' || c = '\r')

def isHexDigit (c : Char) : Bool :=
  c.isDigit || ('a' ≤ c && c ≤ 'f') || ('A' ≤ c && c ≤ 'F')

def hexVal (c : Char) : Nat :=
  if c.isDigit then c.toNat - '0'.toNat
  else if 'a' ≤ c && c ≤ 'f' then c.toNat - 'a'.toNat + 10
  else c.toNat - 'A'.toNat + 10

/-- The body of a JSON string literal, after the opening quote. Rejects raw
    control characters (the loader runs in strict mode) and understands the
    two-character escapes and `\uXXXX`. -/
def parseJsonStringBody : Nat → List Char → Option (List Char × List Char)
  | 0, _ => none
  | _, [] => none
  | fuel + 1, c :: rest =>
      if c = '"' then some ([], rest)
      else if c = '\\' then
        match rest with
        | [] => none
        | e :: rest2 =>
            let cont (decoded : Char) (rem : List Char) :
                Option (List Char × List Char) :=
              (parseJsonStringBody fuel rem).map (fun p => (decoded :: p.1, p.2))
            if e = '"' then cont '"' rest2
            else if e = '\\' then cont '\\' rest2
            else if e = '/' then cont '/' rest2
            else if e = 'b' then cont '\x08' rest2
            else if e = 'f' then cont '\x0c' rest2
            else if e = 'n' then cont '\n' rest2
            else if e = 'r' then cont '\r' rest2
            else if e = 't' then cont '\t' rest2
            else if e = 'u' then
              match rest2 with
              | h1 :: h2 :: h3 :: h4 :: rest3 =>
                  if isHexDigit h1 && isHexDigit h2 && isHexDigit h3 &&
                      isHexDigit h4 then
                    cont (Char.ofNat
                      (((hexVal h1 * 16 + hexVal h2) * 16 + hexVal h3) * 16 +
                        hexVal h4)) rest3
                  else none
              | _ => none
            else none
      else if c.toNat < 0x20 then none
      else (parseJsonStringBody fuel rest).map (fun p => (c :: p.1, p.2))

/-- The lexeme of a JSON number (grammar `-?(0|[1-9]\d*)(\.\d+)?([eE][+-]?\d+)?`,
    plus the `NaN` / `Infinity` extensions Python accepts). -/
def parseJsonNumber (cs : List Char) : Option (List Char × List Char) :=
  let core (cs1 : List Char) : Option (List Char × List Char) :=
    if "Infinity".data.isPrefixOf cs1 then
      some ("Infinity".data, cs1.drop 8)
    else
      match cs1 with
      | [] => none
      | d :: rest =>
          if d = '0' then
            some ([d], rest)
          else if d.isDigit then
            let digs := rest.takeWhile Char.isDigit
            some (d :: digs, rest.drop digs.length)
          else none
  let withFracExp (ip : List Char) (cs2 : List Char) :
      Option (List Char × List Char) :=
    let (frac, cs3) :=
      match cs2 with
      | '.' :: d :: rest =>
          if d.isDigit then
            let digs := rest.takeWhile Char.isDigit
            ('.' :: d :: digs, rest.drop digs.length)
          else ([], cs2)
      | _ => ([], cs2)
    let (ex, cs4) :=
      match cs3 with
      | e :: rest =>
          if e = 'e' || e = 'E' then
            match rest with
            | s :: d :: rest2 =>
                if (s = '+' || s = '-') && d.isDigit then
                  let digs := rest2.takeWhile Char.isDigit
                  (e :: s :: d :: digs, rest2.drop digs.length)
                else if s.isDigit then
                  let digs := rest.tail.takeWhile Char.isDigit
                  (e :: s :: digs, rest.tail.drop digs.length)
                else ([], cs3)
            | [s] =>
                if s.isDigit then (e :: [s], []) else ([], cs3)
            | [] => ([], cs3)
          else ([], cs3)
      | [] => ([], cs3)
    some (ip ++ frac ++ ex, cs4)
  if "NaN".data.isPrefixOf cs then some ("NaN".data, cs.drop 3)
  else
    match cs with
    | '-' :: rest => (core rest).bind (fun p => withFracExp ('-' :: p.1) p.2)
    | _ => (core cs).bind (fun p => withFracExp p.1 p.2)

mutual
/-- One JSON value starting at the head of the input (whitespace already
    skipped), returning the value and the remaining input. -/
def parseJsonVal : Nat → List Char → Option (Json × List Char)
  | 0, _ => none
  | fuel + 1, cs =>
      match cs with
      | [] => none
      | c :: rest =>
          if c = '"' then
            (parseJsonStringBody (rest.length + 1) rest).map
              (fun p => (Json.str (String.mk p.1), p.2))
          else if c = '[' then
            let cs1 := jsonSkipWs rest
            match cs1 with
            | ']' :: cs2 => some (Json.arr [], cs2)
            | _ =>
                (parseJsonArrItems fuel cs1).map
                  (fun p => (Json.arr p.1, p.2))
          else if c = '\x7b' then
            let cs1 := jsonSkipWs rest
            match cs1 with
            | '\x7d' :: cs2 => some (Json.obj [], cs2)
            | _ =>
                (parseJsonObjItems fuel cs1 []).map
                  (fun p => (Json.obj p.1, p.2))
          else if "true".data.isPrefixOf cs then
            some (Json.bool true, cs.drop 4)
          else if "false".data.isPrefixOf cs then
            some (Json.bool false, cs.drop 5)
          else if "null".data.isPrefixOf cs then
            some (Json.null, cs.drop 4)
          else
            (parseJsonNumber cs).map
              (fun p => (Json.num (String.mk p.1), p.2))

/-- Comma-separated array items, ending at `]`. -/
def parseJsonArrItems : Nat → List Char → Option (List Json × List Char)
  | 0, _ => none
  | fuel + 1, cs =>
      match parseJsonVal fuel cs with
      | none => none
      | some (v, rest) =>
          match jsonSkipWs rest with
          | ']' :: rest2 => some ([v], rest2)
          | ',' :: rest2 =>
              (parseJsonArrItems fuel (jsonSkipWs rest2)).map
                (fun p => (v :: p.1, p.2))
          | _ => none

/-- Comma-separated `"key": value` object members, ending at the closing
    brace; a repeated key overwrites the earlier value in place, as a Python
    dict does. -/
def parseJsonObjItems : Nat → List Char → List (String × Json) →
    Option (List (String × Json) × List Char)
  | 0, _, _ => none
  | fuel + 1, cs, acc =>
      match cs with
      | '"' :: rest =>
          match parseJsonStringBody (rest.length + 1) rest with
          | none => none
          | some (key, rest2) =>
              match jsonSkipWs rest2 with
              | ':' :: rest3 =>
                  match parseJsonVal fuel (jsonSkipWs rest3) with
                  | none => none
                  | some (v, rest4) =>
                      let acc2 := objInsert acc (String.mk key) v
                      match jsonSkipWs rest4 with
                      | '\x7d' :: rest5 => some (acc2, rest5)
                      | ',' :: rest5 =>
                          parseJsonObjItems fuel (jsonSkipWs rest5) acc2
                      | _ => none
              | _ => none
      | _ => none
end

/-- Python `json.loads`: exactly one JSON value, possibly surrounded by
    whitespace; `none` models a raised `JSONDecodeError`. -/
def jsonLoads (s : String) : Option Json :=
  let cs := jsonSkipWs s.data
  match parseJsonVal (cs.length + 1) cs with
  | some (v, rest) => if (jsonSkipWs rest).isEmpty then some v else none
  | none => none

/-! ## Python rendering of JSON values (`json.dumps`, `str`, f-strings) -/

/-- A single-quote character, used by Python `repr` of strings. -/
def squote : String := String.mk [Char.ofNat 39]

def natToHex4 (n : Nat) : String :=
  let hexDigit (k : Nat) : Char :=
    if k < 10 then Char.ofNat ('0'.toNat + k) else Char.ofNat ('a'.toNat + k - 10)
  String.mk [hexDigit (n / 4096 % 16), hexDigit (n / 256 % 16),
             hexDigit (n / 16 % 16), hexDigit (n % 16)]

/-- `json.dumps` escaping of one character (default `ensure_ascii=True`). -/
def dumpsChar (c : Char) : String :=
  if c = '"' then "\\\""
  else if c = '\\' then "\\\\"
  else if c = '\n' then "\\n"
  else if c = '\r' then "\\r"
  else if c = '\t' then "\\t"
  else if c = '\x08' then "\\b"
  else if c = '\x0c' then "\\f"
  else if c.toNat < 0x20 || c.toNat > 0x7e then "\\u" ++ natToHex4 c.toNat
  else String.mk [c]

mutual
/-- Python `json.dumps` with its default arguments (item separator `", "`,
    key separator `": "`, `ensure_ascii=True`). -/
def jsonDumps : Json → String
  | .null => "null"
  | .bool true => "true"
  | .bool false => "false"
  | .num lex => lex
  | .str s => "\"" ++ String.join (s.data.map dumpsChar) ++ "\""
  | .arr items => "[" ++ jsonDumpsList items ++ "]"
  | .obj entries => "\x7b" ++ jsonDumpsObj entries ++ "\x7d"

def jsonDumpsList : List Json → String
  | [] => ""
  | [x] => jsonDumps x
  | x :: y :: rest => jsonDumps x ++ ", " ++ jsonDumpsList (y :: rest)

def jsonDumpsObj : List (String × Json) → String
  | [] => ""
  | [(k, v)] => jsonDumps (.str k) ++ ": " ++ jsonDumps v
  | (k, v) :: e :: rest =>
      jsonDumps (.str k) ++ ": " ++ jsonDumps v ++ ", " ++
        jsonDumpsObj (e :: rest)
end

mutual
/-- Python `repr` of a decoded JSON value (the shape `str(dict)` prints:
    single-quoted strings, `True`/`False`/`None` literals). Backslashes and
    quotes inside strings are left as-is — no claim depends on `repr`'s
    escaping of exotic strings. -/
def pyRepr : Json → String
  | .null => "None"
  | .bool true => "True"
  | .bool false => "False"
  | .num lex => lex
  | .str s => squote ++ s ++ squote
  | .arr items => "[" ++ pyReprList items ++ "]"
  | .obj entries => "\x7b" ++ pyReprObj entries ++ "\x7d"

def pyReprList : List Json → String
  | [] => ""
  | [x] => pyRepr x
  | x :: y :: rest => pyRepr x ++ ", " ++ pyReprList (y :: rest)

def pyReprObj : List (String × Json) → String
  | [] => ""
  | [(k, v)] => squote ++ k ++ squote ++ ": " ++ pyRepr v
  | (k, v) :: e :: rest =>
      squote ++ k ++ squote ++ ": " ++ pyRepr v ++ ", " ++ pyReprObj (e :: rest)
end

/-- Python `str(x)` / f-string interpolation of a decoded JSON value: a string
    is inserted verbatim, containers print as their `repr`. -/
def pyStrVal : Json → String
  | .str s => s
  | other => pyRepr other

/-- `str`/f-string rendering of an `Optional` value (`None` prints as such). -/
def pyStrOpt : Option Json → String
  | none => "None"
  | some j => pyStrVal j

/-- Python truthiness of a decoded JSON value (used by
    `tool_args if tool_args else state["query"]`). A numeric lexeme is falsy
    exactly when its mantissa has no non-zero digit. -/
def pyTruthy : Json → Bool
  | .null => false
  | .bool b => b
  | .str s => !s.isEmpty
  | .arr items => !items.isEmpty
  | .obj entries => !entries.isEmpty
  | .num lex =>
      let mantissa := lex.data.takeWhile (fun c => c ≠ 'e' && c ≠ 'E')
      mantissa.any (fun c => c.isDigit && c ≠ '0') ||
        lex.data.any (fun c => c = 'N' || c = 'I')

/-! ## The five extraction passes of `_parse_tool_calls`

Each Python regex `findall` is hand-compiled to an equivalent deterministic
scanner: the quantified sub-patterns all range over disjoint character
classes (`[^{}]*`, `[^}]*`, ``[^`]*``), so greedy matching with backtracking
reduces to maximal-run scanning, and `findall` scans start positions left to
right, resuming after the end of each (non-overlapping) match. -/

/-- Maximal run of characters outside `{}` and the rest
    (the regex piece `[^{}]*`). -/
def spanNonBrace (cs : List Char) : List Char × List Char :=
  (cs.takeWhile (fun c => c ≠ '\x7b' && c ≠ '\x7d'),
   cs.dropWhile (fun c => c ≠ '\x7b' && c ≠ '\x7d'))

/-- After `\{[^{}]*`, the remainder `(?:\{[^{}]*\}[^{}]*)*\}` of the
    one-level-nested brace span used by patterns 1, 4 and 5. -/
def braceTail : Nat → List Char → Option (List Char × List Char)
  | 0, _ => none
  | fuel + 1, cs =>
      match cs with
      | '\x7d' :: rest => some (['\x7d'], rest)
      | '\x7b' :: rest =>
          let (inner, rest2) := spanNonBrace rest
          match rest2 with
          | '\x7d' :: rest3 =>
              let (outrun, rest4) := spanNonBrace rest3
              (braceTail fuel rest4).map
                (fun p => ('\x7b' :: inner ++ '\x7d' :: outrun ++ p.1, p.2))
          | _ => none
      | _ => none

/-- The span `\{[^{}]*(?:\{[^{}]*\}[^{}]*)*\}` at the head of the input:
    returns the first `[^{}]*` run, the whole matched span, and the rest. -/
def parseBraceSpanRun (cs : List Char) :
    Option (List Char × List Char × List Char) :=
  match cs with
  | '\x7b' :: rest =>
      let (run, rest2) := spanNonBrace rest
      (braceTail (rest2.length + 1) rest2).map
        (fun p => (run, '\x7b' :: run ++ p.1, p.2))
  | _ => none

/-- The same span without the run (pattern 1's capture group and the
    parameter extractor's `re.search`). -/
def parseBraceSpan1 (cs : List Char) : Option (List Char × List Char) :=
  (parseBraceSpanRun cs).map (fun p => (p.2.1, p.2.2))

/-- `findall` of pattern 1, `TOOL_CALL:\s*(\{[^{}]*(?:\{[^{}]*\}[^{}]*)*\})`:
    the returned strings are the capture groups (the brace spans). -/
def findall1Go : Nat → List Char → List String
  | 0, _ => []
  | fuel + 1, cs =>
      match cs with
      | [] => []
      | _ :: rest =>
          if "TOOL_CALL:".data.isPrefixOf cs then
            let afterWs := (cs.drop 10).dropWhile isReSpace
            match parseBraceSpan1 afterWs with
            | some (span, rest2) => String.mk span :: findall1Go fuel rest2
            | none => findall1Go fuel rest
          else findall1Go fuel rest

def findall1 (content : String) : List String :=
  findall1Go content.data.length content.data

/-- Characters up to the first `}` and the rest (the regex piece `[^}]*`,
    which may cross `{`). -/
def spanNonCloseBrace (cs : List Char) : List Char × List Char :=
  (cs.takeWhile (fun c => c ≠ '\x7d'), cs.dropWhile (fun c => c ≠ '\x7d'))

/-- The backtick character (written via its code point to keep the source
    free of stray backticks). -/
def btick : Char := Char.ofNat 96

/-- Fenced/backtick alternative 3/4 of pattern 2: a backtick, `\{`, a run of
    non-backtick characters ending in `\}`, and a closing backtick; returns
    the capture group and the rest after the closing backtick. -/
def tickObjectAt (cs : List Char) : Option (List Char × List Char) :=
  match cs with
  | t :: '\x7b' :: rest =>
      if t = btick then
        let chunk := rest.takeWhile (fun c => c ≠ btick)
        let rest2 := rest.dropWhile (fun c => c ≠ btick)
        match rest2 with
        | t2 :: rest3 =>
            if t2 = btick && chunk.getLast? = some '\x7d' then
              some ('\x7b' :: chunk, rest3)
            else none
        | [] => none
      else none
  | _ => none

/-- Fenced-JSON alternatives 1/2 of pattern 2 at the current position:
    ```` ```json\s*(\{[^}]*\})\s*``` ````, with alternative 1 additionally
    requiring `"action"` then `"text2sql"` inside the run (the capture is the
    same object either way, so the distinction does not matter downstream). -/
def fencedJsonAt (cs : List Char) : Option (List Char × List Char) :=
  let fence := [btick, btick, btick]
  if (fence ++ "json".data).isPrefixOf cs then
    let afterWs := (cs.drop 7).dropWhile isReSpace
    match afterWs with
    | '\x7b' :: rest =>
        let (run, rest2) := spanNonCloseBrace rest
        match rest2 with
        | '\x7d' :: rest3 =>
            let afterWs2 := rest3.dropWhile isReSpace
            if fence.isPrefixOf afterWs2 then
              some ('\x7b' :: run ++ ['\x7d'], afterWs2.drop 3)
            else none
        | _ => none
    | _ => none
  else none

/-- `findall` of pattern 2 (the four fenced/backtick alternatives); the
    processing loop keeps every non-empty capture group, so the scanner
    returns exactly those. -/
def findall2Go : Nat → List Char → List String
  | 0, _ => []
  | fuel + 1, cs =>
      match cs with
      | [] => []
      | c :: rest =>
          match fencedJsonAt cs with
          | some (cap, rest2) => String.mk cap :: findall2Go fuel rest2
          | none =>
              if c = '→' then
                let afterWs := rest.dropWhile isReSpace
                match tickObjectAt afterWs with
                | some (cap, rest2) => String.mk cap :: findall2Go fuel rest2
                | none => findall2Go fuel rest
              else
                match tickObjectAt cs with
                | some (cap, rest2) => String.mk cap :: findall2Go fuel rest2
                | none => findall2Go fuel rest

def findall2 (content : String) : List String :=
  findall2Go content.data.length content.data

/-- `findall` of pattern 3, `(\{[^{}]*"action"[^{}]*"text2sql"[^{}]*\})`. -/
def findall3Go : Nat → List Char → List String
  | 0, _ => []
  | fuel + 1, cs =>
      match cs with
      | [] => []
      | c :: rest =>
          if c = '\x7b' then
            let (run, rest2) := spanNonBrace rest
            match rest2 with
            | '\x7d' :: rest3 =>
                if containsThen "\"action\"".data "\"text2sql\"".data run then
                  String.mk ('\x7b' :: run ++ ['\x7d']) :: findall3Go fuel rest3
                else findall3Go fuel rest
            | _ => findall3Go fuel rest
          else findall3Go fuel rest

def findall3 (content : String) : List String :=
  findall3Go content.data.length content.data

/-- `findall` of pattern 4,
    `(\{[^{}]*"name"[^{}]*"args"[^{}]*(?:\{[^{}]*\}[^{}]*)*\})`: a one-level
    brace span whose leading run contains `"name"` and then `"args"`. -/
def findall4Go : Nat → List Char → List String
  | 0, _ => []
  | fuel + 1, cs =>
      match cs with
      | [] => []
      | c :: rest =>
          if c = '\x7b' then
            match parseBraceSpanRun cs with
            | some (run, span, rest2) =>
                if containsThen "\"name\"".data "\"args\"".data run then
                  String.mk span :: findall4Go fuel rest2
                else findall4Go fuel rest
            | none => findall4Go fuel rest
          else findall4Go fuel rest

def findall4 (content : String) : List String :=
  findall4Go content.data.length content.data

/-- `findall` of pattern 5,
    `TEXT2SQL:\s*(\{[^{}]*"action"[^{}]*"text2sql"[^{}]*(?:\{[^{}]*\}[^{}]*)*\})`. -/
def findall5Go : Nat → List Char → List String
  | 0, _ => []
  | fuel + 1, cs =>
      match cs with
      | [] => []
      | _ :: rest =>
          if "TEXT2SQL:".data.isPrefixOf cs then
            let afterWs := (cs.drop 9).dropWhile isReSpace
            match parseBraceSpanRun afterWs with
            | some (run, span, rest2) =>
                if containsThen "\"action\"".data "\"text2sql\"".data run then
                  String.mk span :: findall5Go fuel rest2
                else findall5Go fuel rest
            | none => findall5Go fuel rest
          else findall5Go fuel rest

def findall5 (content : String) : List String :=
  findall5Go content.data.length content.data

/-! ## Pass processing, de-duplication and `_parse_tool_calls` -/

/-- `'action' in tool_call and tool_call['action'] == 'text2sql'`. -/
def isText2sqlAction (tc : Json) : Bool :=
  match objGet tc "action" with
  | some (Json.str s) => s = "text2sql"
  | _ => false

/-- An `action: text2sql` directive normalized into a tool call with the
    reserved name and the JSON-serialized directive as `args`. -/
def normalizeText2sql (tc : Json) : Json :=
  Json.obj [("name", Json.str "text2sql"), ("args", Json.str (jsonDumps tc))]

/-- Pass 1 processing: decode, require `name` and `args` keys, append as-is;
    decode failures are skipped (`except json.JSONDecodeError: continue`). -/
def pass1Record (m : String) : Option Json :=
  match jsonLoads (pyStrip m) with
  | some tc =>
      if objHasKey tc "name" && objHasKey tc "args" then some tc else none
  | none => none

def processPass1 (ms : List String) : List Json :=
  ms.filterMap pass1Record

/-- Pass 2 processing: an `action: text2sql` object is normalized, a
    `name`/`args` object is kept as-is, anything else is dropped. -/
def pass2Record (m : String) : Option Json :=
  match jsonLoads (pyStrip m) with
  | some tc =>
      if isText2sqlAction tc then some (normalizeText2sql tc)
      else if objHasKey tc "name" && objHasKey tc "args" then some tc
      else none
  | none => none

def processPass2 (ms : List String) : List Json :=
  ms.filterMap pass2Record

/-- Pass 3 (and pass 5) processing: only `action: text2sql` objects are kept,
    normalized. -/
def pass3Record (m : String) : Option Json :=
  match jsonLoads (pyStrip m) with
  | some tc => if isText2sqlAction tc then some (normalizeText2sql tc) else none
  | none => none

def processPass3 (ms : List String) : List Json :=
  ms.filterMap pass3Record

/-- The nested-`args` flattening shim of pass 4: when both known keys are
    present the object becomes a natural-language question, else `str(dict)`. -/
def flattenArgsObj (argsDict : Json) : String :=
  if objHasKey argsDict "종목명" && objHasKey argsDict "날짜" then
    pyStrOpt (objGet argsDict "종목명") ++ "의 " ++
      pyStrOpt (objGet argsDict "날짜") ++ " 시가는?"
  else pyStrVal argsDict

/-- Pass 4 processing: decode, require `name`/`args`, and flatten an
    object-valued `args` into a string. -/
def pass4Record (m : String) : Option Json :=
  match jsonLoads (pyStrip m) with
  | some tc =>
      if objHasKey tc "name" && objHasKey tc "args" then
        match objGet tc "args" with
        | some (Json.obj kvs) =>
            some (objSet tc "args" (Json.str (flattenArgsObj (Json.obj kvs))))
        | _ => some tc
      else none
  | none => none

def processPass4 (ms : List String) : List Json :=
  ms.filterMap pass4Record

def processPass5 (ms : List String) : List Json :=
  ms.filterMap pass3Record

/-- Python's type name for an unhashable decoded JSON value, `none` when the
    value is hashable. -/
def jsonUnhashableName : Json → Option String
  | .obj _ => some "dict"
  | .arr _ => some "list"
  | _ => none

def optUnhashableName : Option Json → Option String
  | none => none
  | some j => jsonUnhashableName j

def optJsonBeq : Option Json → Option Json → Bool
  | none, none => true
  | some a, some b => jsonBeq a b
  | _, _ => false

/-- The `TypeError` message raised by hashing a tuple with an unhashable
    element. -/
def unhashableMsg (t : String) : String :=
  "unhashable type: " ++ squote ++ t ++ squote

/-- The de-duplication loop at the end of `_parse_tool_calls`: identifiers
    are the pairs `(call.get('name'), call.get('args'))`, kept first-seen;
    adding an identifier whose component is a dict or list raises
    `TypeError` (this models `seen.add` / `identifier not in seen`). -/
def dedupGo (seen : List (Option Json × Option Json)) (acc : List Json) :
    List Json → Except String (List Json)
  | [] => .ok acc
  | call :: rest =>
      let nameV := objGet call "name"
      let argsV := objGet call "args"
      match optUnhashableName nameV with
      | some t => .error (unhashableMsg t)
      | none =>
          match optUnhashableName argsV with
          | some t => .error (unhashableMsg t)
          | none =>
              if seen.any
                  (fun s => optJsonBeq s.1 nameV && optJsonBeq s.2 argsV) then
                dedupGo seen acc rest
              else dedupGo ((nameV, argsV) :: seen) (acc ++ [call]) rest

def dedupToolCalls (calls : List Json) : Except String (List Json) :=
  dedupGo [] [] calls

/-- `StockSearchAgent._parse_tool_calls`: the five passes over the same
    content, concatenated in pass order, then de-duplicated. The `Except`
    models the fact that the function can raise (only) at de-duplication. -/
def parseToolCalls (content : String) : Except String (List Json) :=
  dedupToolCalls
    (processPass1 (findall1 content) ++ processPass2 (findall2 content) ++
     processPass3 (findall3 content) ++ processPass4 (findall4 content) ++
     processPass5 (findall5 content))

/-! ## `QueryParser._extract_parameters` -/

/-- `re.search(r'\{[^{}]*(?:\{[^{}]*\}[^{}]*)*\}', content)`: the match at
    the leftmost start position. -/
def braceSearchGo : Nat → List Char → Option String
  | 0, _ => none
  | fuel + 1, cs =>
      match cs with
      | [] => none
      | _ :: rest =>
          match parseBraceSpan1 cs with
          | some (span, _) => some (String.mk span)
          | none => braceSearchGo fuel rest

def braceSearch (s : String) : Option String :=
  braceSearchGo (s.data.length) s.data

/-- `QueryParser._extract_parameters`, with the LLM call abstracted into the
    `replyContent` argument: the whole body sits in a single `try` whose
    `except Exception` returns `{}` — in particular, when the brace-span
    search succeeds but decoding it fails, the body raises and the function
    returns `{}` without ever trying to decode the full reply. -/
def extractParameters (replyContent : String) : Json :=
  let content := pyStrip replyContent
  match braceSearch content with
  | some span =>
      match jsonLoads span with
      | some v => v
      | none => Json.obj []
  | none =>
      match jsonLoads content with
      | some v => v
      | none => Json.obj []

/-! ## The orchestration state machine

`StockSearchState` keeps the fields the graph's control flow reads or that
the claims talk about.  The pure observability fields (`execution_log`,
`tool_results`, `node_traces`, `state_history`) and the unused cursor fields
(`current_tool_index`, `pending_tools`, `completed_tools`) are only ever
appended to, never branched on, and are omitted.  The LLM, the registered
tool handlers and the SQL synthesis subsystem are external collaborators,
abstracted as oracle functions; a raising collaborator is an `Except.error`. -/

/-- The keys of `QueryParser.tool_mappings`, from which `_create_tools`
    builds the registered `Tool` objects. -/
def toolNames : List String :=
  ["get_stock_price", "get_market_stats", "get_market_index",
   "search_company", "search_price", "search_price_change", "search_volume",
   "search_trading_value_ranking", "get_rsi_signals", "get_bollinger_signals",
   "get_ma_breakout", "get_volume_surge", "get_cross_signals",
   "count_cross_signals", "search_compound", "text2sql"]

/-- `self.TOOLS_NEED_FILTERING`. -/
def toolsNeedFiltering : List String :=
  ["search_price_change", "search_volume", "search_price", "search_compound",
   "get_rsi_signals", "get_ma_breakout", "get_volume_surge",
   "get_cross_signals", "text2sql"]

/-- The fixed parameter-missing marker phrases scanned for in `tools_node`. -/
def errorKeywords : List String :=
  ["질문을 이해할 수 없습니다", "날짜 정보를 찾을 수 없습니다",
   "조건을 찾을 수 없습니다", "임계값을 찾을 수 없습니다",
   "파라미터를 추출할 수 없습니다"]

/-- The run state (messages are `(is_ai_message, content)` pairs). -/
structure AgentState where
  query : String
  messages : List (Bool × String)
  result : String
  tool_calls : List Json
  iterations : Nat
  validation_status : String
  clarification_needed : Bool
  retry_count : Nat
  tool_execution_results : List String

/-- The external collaborators of one run: the proposing LLM's reply, the
    registered tool handlers (`tool.func`, by tool name and raw `args`
    value), the SQL synthesis entry point, and the answer-generating LLM
    (applied to the full generation prompt).  `Except.error` models a raised
    exception. -/
structure Oracles where
  agentReply : Except String String
  exec : String → Json → Except String String
  sqlExec : Json → Except String String
  genReply : String → Except String String

def callName (c : Json) : Option Json := objGet c "name"

/-- `tool_call.get("args", "")`. -/
def callArgsD (c : Json) : Json := (objGet c "args").getD (Json.str "")

/-- `call.get("name") == "text2sql"` (a missing or non-string name compares
    unequal). -/
def isNameText2sql (c : Json) : Bool :=
  match callName c with
  | some (Json.str s) => s = "text2sql"
  | _ => false

/-- `agent_node`: appends the user query and the model's reply to the
    conversation and increments the iteration counter. -/
def agentNode (o : Oracles) (st : AgentState) : Except String AgentState :=
  o.agentReply.map fun reply =>
    { st with
        messages := st.messages ++ [(false, st.query), (true, reply)],
        iterations := st.iterations + 1 }

/-- The content of the last AI message (empty when there is none). -/
def lastAIContent (msgs : List (Bool × String)) : String :=
  match msgs.reverse.find? (fun m => m.1) with
  | some m => m.2
  | none => ""

/-- `parse_node`: parses tool calls out of the last AI message (and can
    therefore raise, through `_parse_tool_calls`). -/
def parseNode (st : AgentState) : Except String AgentState :=
  (parseToolCalls (lastAIContent st.messages)).map fun calls =>
    { st with tool_calls := calls }

/-- `any(keyword in result for keyword in error_keywords)`. -/
def keywordHit (result : String) : Bool :=
  errorKeywords.any (fun k => strContainsSub result k)

/-- One iteration of the `tools_node` loop over `(results,
    validation_status)`: a found tool runs and may flip the status to
    `param_missing` on a marker phrase (a clean result leaves the status
    unchanged), a raising tool or an unknown tool name sets `tool_error`. -/
def regularToolStep (o : Oracles) (acc : List String × String) (c : Json) :
    List String × String :=
  let (results, vstatus) := acc
  match callName c with
  | some (Json.str n) =>
      if toolNames.contains n then
        match o.exec n (callArgsD c) with
        | .ok r =>
            (results ++ [n ++ " 결과: " ++ r],
             if keywordHit r then "param_missing" else vstatus)
        | .error e => (results ++ [n ++ " 오류: " ++ e], "tool_error")
      else (results ++ ["알 수 없는 도구: " ++ n], "tool_error")
  | _ =>
      (results ++ ["알 수 없는 도구: " ++ pyStrOpt (callName c)], "tool_error")

/-- The whole `tools_node` loop: results in execution order and the final
    validation status, starting from `"success"`. -/
def runRegularBatch (o : Oracles) (calls : List Json) : List String × String :=
  calls.foldl (regularToolStep o) ([], "success")

/-- The non-`text2sql` calls of a parsed list (the `regular_tools` filter). -/
def regularCalls (calls : List Json) : List Json :=
  calls.filter (fun c => !isNameText2sql c)

/-- The `text2sql` calls of a parsed list. -/
def sqlCalls (calls : List Json) : List Json :=
  calls.filter isNameText2sql

/-- `tools_node`: executes every non-`text2sql` call sequentially; with no
    such call it only sets `validation_status` to `"success"`. -/
def toolsNode (o : Oracles) (st : AgentState) : AgentState :=
  let regularTools := regularCalls st.tool_calls
  if regularTools.isEmpty then { st with validation_status := "success" }
  else
    let batch := runRegularBatch o regularTools
    let toolResult := pyJoin "\n\n" batch.1
    { st with
        messages := st.messages ++ [(true, toolResult)],
        result := toolResult,
        validation_status := batch.2,
        tool_execution_results := st.tool_execution_results ++ batch.1 }

/-- One iteration of the `text2sql_node` loop: the original question is the
    call's `args` when truthy, else the run's query; a successful execution
    leaves the status unchanged, an exception sets `tool_error` (no marker
    scan happens here, so `param_missing` is never produced). -/
def text2sqlStep (o : Oracles) (q : String) (acc : List String × String)
    (c : Json) : List String × String :=
  let (results, vstatus) := acc
  let toolArgs := callArgsD c
  let originalQuery := if pyTruthy toolArgs then toolArgs else Json.str q
  match o.sqlExec originalQuery with
  | .ok r => (results ++ ["text2sql 결과: " ++ r], vstatus)
  | .error e => (results ++ ["text2sql 오류: " ++ e], "tool_error")

def runSqlBatch (o : Oracles) (q : String) (calls : List Json) :
    List String × String :=
  calls.foldl (text2sqlStep o q) ([], "success")

/-- `text2sql_node`: executes every `text2sql` call; with no such call it
    only sets `validation_status` to `"success"`. -/
def text2sqlNode (o : Oracles) (st : AgentState) : AgentState :=
  let t2sCalls := sqlCalls st.tool_calls
  if t2sCalls.isEmpty then { st with validation_status := "success" }
  else
    let batch := runSqlBatch o st.query t2sCalls
    let toolResult := pyJoin "\n\n" batch.1
    { st with
        messages := st.messages ++ [(true, toolResult)],
        result := toolResult,
        validation_status := batch.2,
        tool_execution_results := st.tool_execution_results ++ batch.1 }

/-- The conditional edge out of `parse`. -/
def shouldContinue (st : AgentState) : String :=
  if st.tool_calls.isEmpty then "generation"
  else
    let hasT2s := st.tool_calls.any isNameText2sql
    let hasRegular := st.tool_calls.any (fun c => !isNameText2sql c)
    if hasT2s && hasRegular then "tools"
    else if hasT2s then "text2sql"
    else if hasRegular then "tools"
    else "generation"

/-- The conditional edge out of `tools`. -/
def afterToolsRouting (st : AgentState) : String :=
  if st.validation_status = "param_missing" && st.retry_count < 2 then
    "clarifier"
  else if st.tool_calls.any isNameText2sql then "text2sql"
  else "filter_decision"

/-- The conditional edge out of `text2sql`. -/
def afterText2sqlRouting (st : AgentState) : String :=
  if st.validation_status = "param_missing" && st.retry_count < 2 then
    "clarifier"
  else "filter_decision"

/-- The conditional edge out of the dummy `filter_decision` node. -/
def shouldFilterResults (st : AgentState) : String :=
  let needsFiltering := st.tool_calls.any (fun c =>
    match callName c with
    | some (Json.str n) => toolsNeedFiltering.contains n
    | _ => false)
  if needsFiltering then "result_filter" else "generation"

/-- The clarification prompt (`clarifier_node`'s f-string; its last example
    line has no closing quote because the triple quote ends the literal). -/
def clarificationPrompt (query : String) : String :=
  "질문을 더 구체적으로 해주세요. \n\n원본 질문: " ++ query ++
  "\n\n다음과 같은 정보가 필요합니다:\n- 정확한 날짜 (예: 2025-11-06)\n" ++
  "- 구체적인 조건 (예: RSI 70 이상, 거래량 100만주 이상)\n" ++
  "- 시장 구분이 필요한 경우 KOSPI 또는 KOSDAQ 명시\n\n예시:\n" ++
  "- \"2025-11-06 RSI 70 이상 과매수 종목은?\"\n" ++
  "- \"2025-11-06 KOSPI 시장에서 가격이 1만원 이상 5만원 이하인 종목은?\"\n" ++
  "- \"2025-01-01부터 2025-12-31까지 골든크로스 발생 종목은?"

/-- `clarifier_node`: terminal; stores the clarification prompt as the
    result and raises the `clarification_needed` flag. -/
def clarifierNode (st : AgentState) : AgentState :=
  let p := clarificationPrompt st.query
  { st with
      messages := st.messages ++ [(true, p)],
      result := p,
      clarification_needed := true }

/-! ### `result_filter_node` -/

/-- Heuristic 1, `re.search(r'[\w가-힣]+\s*\([\w\d]+\)', line)`: somewhere a
    word character (possibly followed by whitespace) precedes `(`, and a
    nonempty word-character run then `)` follows. -/
def sc1Go (prevRev : List Char) : List Char → Bool
  | [] => false
  | c :: rest =>
      (if c = '(' then
        let beforeSpaces := prevRev.dropWhile isReSpace
        let okBefore :=
          match beforeSpaces with
          | b :: _ => isPyWordChar b
          | [] => false
        let run := rest.takeWhile isPyWordChar
        let okAfter :=
          !run.isEmpty &&
            (match rest.drop run.length with
             | ')' :: _ => true
             | _ => false)
        okBefore && okAfter
      else false) || sc1Go (c :: prevRev) rest

def sc1 (cs : List Char) : Bool := sc1Go [] cs

/-- Heuristic 2, `re.search(r'^\d+\.\s*[\w가-힣]', line)`. -/
def sc2 (cs : List Char) : Bool :=
  let digs := cs.takeWhile Char.isDigit
  if digs.isEmpty then false
  else
    match cs.drop digs.length with
    | '.' :: rest =>
        match rest.dropWhile isReSpace with
        | c :: _ => isPyWordChar c
        | [] => false
    | _ => false

/-- Heuristic 3, `re.search(r'[\w가-힣]+\s*\|\s*[\d,]+', line)`. -/
def sc3Go (prevRev : List Char) : List Char → Bool
  | [] => false
  | c :: rest =>
      (if c = '|' then
        let beforeSpaces := prevRev.dropWhile isReSpace
        let okBefore :=
          match beforeSpaces with
          | b :: _ => isPyWordChar b
          | [] => false
        let okAfter :=
          match rest.dropWhile isReSpace with
          | d :: _ => d.isDigit || d = ','
          | [] => false
        okBefore && okAfter
      else false) || sc3Go (c :: prevRev) rest

def sc3 (cs : List Char) : Bool := sc3Go [] cs

/-- The loose length-plus-Hangul heuristic's character set. -/
def hangulSeeds : List Char := "가나다라마바사아자차카타파하".data

/-- The stock-like line classifier of `result_filter_node`. -/
def stockLikeLine (cs : List Char) : Bool :=
  sc1 cs || sc2 cs || sc3 cs ||
    (cs.length > 5 && cs.length < 100 &&
      cs.any (fun c => hangulSeeds.contains c))

/-- `re.search(r'(\d+)개', query)` — the first digit run directly followed by
    `개`, as a number. -/
def searchNGae : List Char → Option Nat
  | [] => none
  | c :: rest =>
      if c.isDigit then
        let digs := (c :: rest).takeWhile Char.isDigit
        match (c :: rest).drop digs.length with
        | '개' :: _ => some (digitsToNat digs)
        | _ => searchNGae rest
      else searchNGae rest

/-- `any(keyword in query.lower() for keyword in ['모두', '전체', '모든'])`. -/
def hasAllKeyword (query : String) : Bool :=
  ["모두", "전체", "모든"].any (fun k => strContainsSub (pyLower query) k)

/-- The non-empty stripped lines of the accumulated result. -/
def filterLines (result : String) : List (List Char) :=
  ((splitNl result.data).map pyStripList).filter (fun l => !l.isEmpty)

/-- The `(should_limit, limit)` pair computed by `result_filter_node`. -/
def filterLimit (query : String) (stockCount : Nat) : Bool × Nat :=
  if hasAllKeyword query then (false, stockCount)
  else
    match searchNGae query.data with
    | some n => (true, n)
    | none => if stockCount > 100 then (true, 100) else (false, stockCount)

/-- The truncated result string built when the limit bites: header lines,
    the first `limit` stock-like lines, and the count-disclosure suffix. -/
def truncatedResult (res : String) (limit : Nat) : String :=
  let lines := filterLines res
  let stockLines := lines.filter stockLikeLine
  let headerLines := lines.filter (fun l => !stockLines.contains l)
  let filteredStocks := stockLines.take limit
  pyJoin "\n" ((headerLines ++ filteredStocks).map String.mk) ++
    "\n\n... 등 총 " ++ toString stockLines.length ++ "개 종목이 있습니다."

/-- `result_filter_node`: keeps header lines, truncates the stock-like lines
    to the limit and appends the count-disclosure suffix when the limit
    bites; otherwise leaves `result` untouched. -/
def resultFilterNode (st : AgentState) : AgentState :=
  let stockLines := (filterLines st.result).filter stockLikeLine
  let lim := filterLimit st.query stockLines.length
  if lim.1 && stockLines.length > lim.2 then
    { st with result := truncatedResult st.result lim.2 }
  else st

/-! ### `generation_node` and the compiled graph -/

/-- The generation prompt (`generation_node`'s f-string). -/
def generationPrompt (query toolResult : String) : String :=
  "사용자 질문에 대한 도구 실행 결과를 그대로 전달하세요.\n\n사용자 질문: " ++
  query ++ "\n\n도구 실행 결과:\n" ++ toolResult ++
  "\n\n**필수 규칙**:\n- 도구 결과를 그대로 복사해서 전달\n" ++
  "- 절대로 종목 개수를 줄이지 말 것\n" ++
  "- \"총 38개 중 30개 표시\"라고 나와있으면 → 30개 모두 나열\n" ++
  "- 임의로 5개, 10개로 제한하지 말 것\n- 날짜 정보가 있으면 포함\n\n답변 형식:\n" ++
  pyReplace query "모두 보여줘" "" ++
  "에 대한 결과는 다음과 같습니다:\n\n[도구 결과에 나온 모든 종목을 그대로 나열]\n\n답변:"

/-- The concatenated tool output `generation_node` puts into its prompt. -/
def genToolResult (st : AgentState) : String :=
  if !st.tool_execution_results.isEmpty then
    pyJoin "\n\n" st.tool_execution_results
  else st.result

/-- `generation_node`: terminal; the LLM's answer becomes the result. -/
def generationNode (o : Oracles) (st : AgentState) : Except String AgentState :=
  (o.genReply (generationPrompt st.query (genToolResult st))).map fun ans =>
    { st with messages := st.messages ++ [(true, ans)], result := ans }

/-- The graph's nodes. -/
inductive GNode where
  | agent
  | parse
  | tools
  | text2sql
  | filterDecision
  | resultFilter
  | clarifier
  | generation
deriving DecidableEq

/-- The run from the `generation` node (edge `generation → END`). -/
def runGenStage (o : Oracles) (st : AgentState) :
    Except String (AgentState × List GNode) :=
  (generationNode o st).map (fun s => (s, [GNode.generation]))

/-- The run from the dummy `filter_decision` node (conditional edges to
    `result_filter` or `generation`; `result_filter → generation`). -/
def runFilterDecisionStage (o : Oracles) (st : AgentState) :
    Except String (AgentState × List GNode) :=
  if shouldFilterResults st = "result_filter" then
    (runGenStage o (resultFilterNode st)).map
      (fun p => (p.1, GNode.filterDecision :: GNode.resultFilter :: p.2))
  else
    (runGenStage o st).map (fun p => (p.1, GNode.filterDecision :: p.2))

/-- The run from the `text2sql` node (conditional edges to `clarifier` or
    `filter_decision`; `clarifier → END`). -/
def runText2sqlStage (o : Oracles) (st : AgentState) :
    Except String (AgentState × List GNode) :=
  let st2 := text2sqlNode o st
  if afterText2sqlRouting st2 = "clarifier" then
    .ok (clarifierNode st2, [GNode.text2sql, GNode.clarifier])
  else
    (runFilterDecisionStage o st2).map (fun p => (p.1, GNode.text2sql :: p.2))

/-- The continuation after the `tools` node has run: its conditional edges
    to `clarifier`, `text2sql` or `filter_decision`. -/
def contAfterTools (o : Oracles) (st : AgentState) :
    Except String (AgentState × List GNode) :=
  if afterToolsRouting st = "clarifier" then
    .ok (clarifierNode st, [GNode.clarifier])
  else if afterToolsRouting st = "text2sql" then runText2sqlStage o st
  else runFilterDecisionStage o st

/-- The run from the `tools` node. -/
def runToolsStage (o : Oracles) (st : AgentState) :
    Except String (AgentState × List GNode) :=
  (contAfterTools o (toolsNode o st)).map
    (fun p => (p.1, GNode.tools :: p.2))

/-- Dispatch out of `parse` (the `should_continue` conditional edges). -/
def runParsedStage (o : Oracles) (st : AgentState) :
    Except String (AgentState × List GNode) :=
  if shouldContinue st = "tools" then runToolsStage o st
  else if shouldContinue st = "text2sql" then runText2sqlStage o st
  else runGenStage o st

/-- The initial state built by `search`. -/
def initialState (query : String) : AgentState :=
  { query := query, messages := [], result := "", tool_calls := [],
    iterations := 0, validation_status := "pending",
    clarification_needed := false, retry_count := 0,
    tool_execution_results := [] }

/-- `self.graph.invoke(initial_state)`: the full run, returning the final
    state and the ordered list of visited nodes. -/
def runSearch (o : Oracles) (query : String) :
    Except String (AgentState × List GNode) :=
  (agentNode o (initialState query)).bind fun st1 =>
    (parseNode st1).bind fun st2 =>
      (runParsedStage o st2).map
        (fun p => (p.1, GNode.agent :: GNode.parse :: p.2))

/-- The error-shaped answer built by `search`'s top-level `except`. -/
def errorAnswer (e : String) : String := "검색 중 오류 발생: " ++ e

/-- The public `search` entry point (the string-returning shape; the
    detailed-info variant wraps the same `result` value). -/
def searchFn (o : Oracles) (query : String) : String :=
  match runSearch o query with
  | .ok p => p.1.result
  | .error e => errorAnswer e

/-! ## Per-call characterization of the execution batches -/

/-- The result entry `tools_node` records for a single call. -/
def execEntry (o : Oracles) (c : Json) : String :=
  match callName c with
  | some (Json.str n) =>
      if toolNames.contains n then
        match o.exec n (callArgsD c) with
        | .ok r => n ++ " 결과: " ++ r
        | .error e => n ++ " 오류: " ++ e
      else "알 수 없는 도구: " ++ n
  | _ => "알 수 없는 도구: " ++ pyStrOpt (callName c)

/-- The status classification a single structured call produces: `success`
    for a clean handler result, `param_missing` when the result text matches
    an error-marker phrase, `tool_error` for a raising handler or an unknown
    tool name. -/
def classifyCall (o : Oracles) (c : Json) : String :=
  match callName c with
  | some (Json.str n) =>
      if toolNames.contains n then
        match o.exec n (callArgsD c) with
        | .ok r => if keywordHit r then "param_missing" else "success"
        | .error _ => "tool_error"
      else "tool_error"
  | _ => "tool_error"

/-- The result entry `text2sql_node` records for a single call. -/
def sqlEntry (o : Oracles) (q : String) (c : Json) : String :=
  match o.sqlExec
      (if pyTruthy (callArgsD c) then callArgsD c else Json.str q) with
  | .ok r => "text2sql 결과: " ++ r
  | .error e => "text2sql 오류: " ++ e

/-- The classification of the most recent call whose classification is not
    `"success"` (`"success"` when there is none) — how the batch status
    actually accumulates. -/
def lastNonSuccess (ts : List String) : String :=
  ((ts.filter (fun t => t ≠ "success")).getLast?).getD "success"

lemma regularToolStep_eq (o : Oracles) (acc : List String × String)
    (c : Json) :
    regularToolStep o acc c =
      (acc.1 ++ [execEntry o c],
       if classifyCall o c = "success" then acc.2 else classifyCall o c) := by
  obtain ⟨results, vstatus⟩ := acc
  cases hn : callName c with
  | none => simp [regularToolStep, execEntry, classifyCall, hn]
  | some v =>
      cases v with
      | str n =>
          by_cases ht : toolNames.contains n
          · have ht2 : n ∈ toolNames := by simpa using ht
            cases hx : o.exec n (callArgsD c) with
            | ok r =>
                by_cases hk : keywordHit r <;>
                  simp [regularToolStep, execEntry, classifyCall, hn, ht, ht2,
                    hx, hk]
            | error e =>
                simp [regularToolStep, execEntry, classifyCall, hn, ht, ht2, hx]
          · have ht2 : ¬n ∈ toolNames := by simpa using ht
            simp [regularToolStep, execEntry, classifyCall, hn, ht, ht2]
      | null => simp [regularToolStep, execEntry, classifyCall, hn]
      | bool b => simp [regularToolStep, execEntry, classifyCall, hn]
      | num l => simp [regularToolStep, execEntry, classifyCall, hn]
      | arr xs => simp [regularToolStep, execEntry, classifyCall, hn]
      | obj es => simp [regularToolStep, execEntry, classifyCall, hn]

lemma regularBatch_results_general (o : Oracles) (calls : List Json)
    (acc : List String × String) :
    (calls.foldl (regularToolStep o) acc).1 =
      acc.1 ++ calls.map (execEntry o) := by
  induction calls generalizing acc with
  | nil => simp
  | cons c rest ih =>
      simp only [List.foldl_cons, List.map_cons]
      rw [ih, regularToolStep_eq]
      simp

/-- The structured batch records exactly one entry per call, in order. -/
lemma runRegularBatch_results (o : Oracles) (calls : List Json) :
    (runRegularBatch o calls).1 = calls.map (execEntry o) := by
  simpa using regularBatch_results_general o calls ([], "success")

lemma regularBatch_status_general (o : Oracles) (calls : List Json)
    (acc : List String × String) :
    (calls.foldl (regularToolStep o) acc).2 =
      (calls.map (classifyCall o)).foldl
        (fun s t => if t = "success" then s else t) acc.2 := by
  induction calls generalizing acc with
  | nil => simp
  | cons c rest ih =>
      simp only [List.foldl_cons, List.map_cons]
      rw [ih, regularToolStep_eq]

lemma getLast?_cons_isSome {α : Type} (x : α) (xs : List α) :
    ∃ y, (x :: xs).getLast? = some y := by
  induction xs generalizing x with
  | nil => exact ⟨x, rfl⟩
  | cons b bs ih =>
      obtain ⟨y, hy⟩ := ih b
      exact ⟨y, by rw [List.getLast?_cons_cons]; exact hy⟩

lemma foldl_override_eq_lastNonSuccess (ts : List String) (v : String) :
    ts.foldl (fun s t => if t = "success" then s else t) v =
      ((ts.filter (fun t => t ≠ "success")).getLast?).getD v := by
  induction ts generalizing v with
  | nil => rfl
  | cons t rest ih =>
      by_cases h : t = "success"
      · simp [List.filter_cons, h, ih]
      · have hd : (decide (t ≠ "success")) = true := by simpa using h
        simp only [List.foldl_cons, if_neg h, List.filter_cons, hd, if_true]
        rw [ih]
        cases hr : rest.filter (fun s => decide (s ≠ "success")) with
        | nil => simp [hr]
        | cons x xs =>
            obtain ⟨y, hy⟩ := getLast?_cons_isSome x xs
            simp [hr, hy, List.getLast?_cons_cons]

/-- The final status of the structured batch is the classification of the
    last call that did not classify as success. -/
lemma runRegularBatch_status (o : Oracles) (calls : List Json) :
    (runRegularBatch o calls).2 =
      lastNonSuccess (calls.map (classifyCall o)) := by
  rw [runRegularBatch, regularBatch_status_general,
    foldl_override_eq_lastNonSuccess, lastNonSuccess]

lemma sqlBatch_results_general (o : Oracles) (q : String) (calls : List Json)
    (acc : List String × String) :
    (calls.foldl (text2sqlStep o q) acc).1 =
      acc.1 ++ calls.map (sqlEntry o q) := by
  induction calls generalizing acc with
  | nil => simp
  | cons c rest ih =>
      simp only [List.foldl_cons, List.map_cons]
      rw [ih]
      simp only [text2sqlStep, sqlEntry]
      cases o.sqlExec (if pyTruthy (callArgsD c) then callArgsD c
        else Json.str q) <;> simp

/-- The SQL batch also records exactly one entry per call, in order. -/
lemma runSqlBatch_results (o : Oracles) (q : String) (calls : List Json) :
    (runSqlBatch o q calls).1 = calls.map (sqlEntry o q) := by
  simpa using sqlBatch_results_general o q calls ([], "success")

lemma sqlBatch_status_general (o : Oracles) (q : String) (calls : List Json)
    (acc : List String × String) :
    (calls.foldl (text2sqlStep o q) acc).2 = acc.2 ∨
      (calls.foldl (text2sqlStep o q) acc).2 = "tool_error" := by
  induction calls generalizing acc with
  | nil => simp
  | cons c rest ih =>
      simp only [List.foldl_cons]
      rcases ih (text2sqlStep o q acc c) with h | h
      · rw [h]
        simp only [text2sqlStep]
        cases o.sqlExec (if pyTruthy (callArgsD c) then callArgsD c
          else Json.str q) <;> simp
      · right; exact h

/-- The SQL stage's batch status is `success` or `tool_error`, never
    `param_missing` (there is no marker scan in `text2sql_node`). -/
lemma runSqlBatch_status (o : Oracles) (q : String) (calls : List Json) :
    (runSqlBatch o q calls).2 = "success" ∨
      (runSqlBatch o q calls).2 = "tool_error" :=
  sqlBatch_status_general o q calls ([], "success")

/-! ## Derived definitions used by the claim statements -/

/-- The state right after `agent` and `parse` for a given reply and parsed
    call list. -/
def postParseState (q reply : String) (calls : List Json) : AgentState :=
  { initialState q with
      messages := [(false, q), (true, reply)],
      iterations := 1,
      tool_calls := calls }

/-- Whether a call record's `args` value is a string. -/
def argsIsString (c : Json) : Bool :=
  match objGet c "args" with
  | some (Json.str _) => true
  | _ => false

/-- Run outcome: the final answer came from the generation stage. -/
def GenOutcome (o : Oracles) (st : AgentState) (tr : List GNode) : Prop :=
  GNode.generation ∈ tr ∧ GNode.clarifier ∉ tr ∧
    st.clarification_needed = false ∧
    ∃ p ans, o.genReply p = .ok ans ∧ st.result = ans

/-- Run outcome: the final answer is the clarifier's prompt. -/
def ClarOutcome (q : String) (st : AgentState) (tr : List GNode) : Prop :=
  GNode.clarifier ∈ tr ∧ GNode.generation ∉ tr ∧
    st.clarification_needed = true ∧ st.result = clarificationPrompt q

/-! ## Concrete inputs and oracles used by witnesses and counterexamples -/

/-- A reply whose labeled call carries an object-valued `args` (matched by
    pass 1, which does not flatten it). -/
def c1FailingInput : String :=
  "TOOL_CALL: \x7b\"name\": \"x\", \"args\": \x7b\"a\": \"b\"\x7d\x7d"

/-- A reply whose call carries a numeric `args`. -/
def c7Input : String := "TOOL_CALL: \x7b\"name\": \"x\", \"args\": 5\x7d"

def c7wKvs : List (String × Json) :=
  [("종목명", Json.str "삼성전자"), ("날짜", Json.str "2024-11-06")]

def c7wObj : Json :=
  Json.obj [("name", Json.str "get_stock_price"), ("args", Json.obj c7wKvs)]

/-- A bare `name`/`args` object with nested structured args (matched only by
    pass 4). -/
def c7wInput : String :=
  "\x7b\"name\": \"get_stock_price\", \"args\": \x7b\"종목명\": \"삼성전자\", \"날짜\": \"2024-11-06\"\x7d\x7d"

/-- A reply whose first balanced-brace span is not valid JSON although the
    whole reply is (`{"a": "}"}`; the span stops at the quoted brace). -/
def c9Reply : String := "\x7b\"a\": \"\x7d\"\x7d"

def c9Span : String := "\x7b\"a\": \"\x7d"

def c9wReply : String := "  \x7b\"date\": \"2025-09-15\"\x7d  "

def c9wSpan : String := "\x7b\"date\": \"2025-09-15\"\x7d"

def c5Oracle : Oracles :=
  { agentReply := .ok "",
    exec := fun n _ =>
      if n = "get_market_index" then .error "db 연결 오류" else .ok "정상 결과",
    sqlExec := fun _ => .ok "",
    genReply := fun _ => .ok "" }

def c5c1 : Json :=
  Json.obj [("name", Json.str "get_stock_price"), ("args", Json.str "삼성전자")]

def c5c2 : Json :=
  Json.obj [("name", Json.str "get_market_index"), ("args", Json.str "KOSPI")]

def c5c3 : Json :=
  Json.obj [("name", Json.str "search_company"), ("args", Json.str "하이닉스")]

/-- First call's handler reports a missing date (a marker phrase), the
    second's result is clean. -/
def c6Oracle : Oracles :=
  { agentReply := .ok "",
    exec := fun n _ =>
      if n = "get_stock_price" then .ok "날짜 정보를 찾을 수 없습니다"
      else .ok "정상 조회 결과",
    sqlExec := fun _ => .ok "",
    genReply := fun _ => .ok "" }

def c6c1 : Json :=
  Json.obj [("name", Json.str "get_stock_price"), ("args", Json.str "질문")]

def c6c2 : Json :=
  Json.obj [("name", Json.str "search_company"), ("args", Json.str "질문")]

/-- 150 entity-like lines (each matches the parenthesized-code heuristic;
    kept short so the witness evaluates cheaply). -/
def c8Result : String :=
  pyJoin "\n" ((List.range 150).map (fun _ => "가 (1)"))

def c8State : AgentState :=
  { initialState "상승 종목 알려줘" with result := c8Result }

def c2Oracle : Oracles :=
  { agentReply := .ok "도구 없이 답합니다",
    exec := fun _ _ => .ok "",
    sqlExec := fun _ => .ok "",
    genReply := fun _ => .ok "최종 답변" }

def c2Query : String := "인사"

def c2RunPair : AgentState × List GNode :=
  match runSearch c2Oracle c2Query with
  | .ok p => p
  | .error _ => (initialState "", [])

def c3Oracle : Oracles :=
  { agentReply := .ok
      ("TOOL_CALL: \x7b\"name\": \"get_stock_price\", \"args\": \"삼성전자\"\x7d\nTOOL_CALL: \x7b\"name\": \"text2sql\", \"args\": \"시장 평균\"\x7d"),
    exec := fun _ _ => .ok "가격 51000",
    sqlExec := fun _ => .ok "평균 0.5",
    genReply := fun _ => .ok "답변" }

def c3Query : String := "비교 질문"

def c3RunPair : AgentState × List GNode :=
  match runSearch c3Oracle c3Query with
  | .ok p => p
  | .error _ => (initialState "", [])

def c10Oracle : Oracles :=
  { agentReply := .ok
      "TOOL_CALL: \x7b\"name\": \"get_stock_price\", \"args\": \"삼성전자\"\x7d",
    exec := fun _ _ => .ok "날짜 정보를 찾을 수 없습니다",
    sqlExec := fun _ => .ok "",
    genReply := fun _ => .ok "" }

def c10Query : String := "삼성전자 주가"

def c10RunPair : AgentState × List GNode :=
  match runSearch c10Oracle c10Query with
  | .ok p => p
  | .error _ => (initialState "", [])

def c4StateA : AgentState :=
  { initialState "질문" with validation_status := "param_missing" }

def c4StateB : AgentState :=
  { initialState "질문" with
      validation_status := "param_missing", retry_count := 2 }

def c4Oracle : Oracles :=
  { agentReply := .ok "",
    exec := fun _ _ => .ok "",
    sqlExec := fun _ => .ok "",
    genReply := fun _ => .ok "답" }

def c4RunPair : AgentState × List GNode :=
  match contAfterTools c4Oracle c4StateB with
  | .ok p => p
  | .error _ => (initialState "", [])

/-! ## Node-level lemmas -/

lemma toolsNode_query (o : Oracles) (st : AgentState) :
    (toolsNode o st).query = st.query := by
  simp only [toolsNode]; split <;> rfl

lemma toolsNode_tool_calls (o : Oracles) (st : AgentState) :
    (toolsNode o st).tool_calls = st.tool_calls := by
  simp only [toolsNode]; split <;> rfl

lemma toolsNode_retry (o : Oracles) (st : AgentState) :
    (toolsNode o st).retry_count = st.retry_count := by
  simp only [toolsNode]; split <;> rfl

lemma toolsNode_cn (o : Oracles) (st : AgentState) :
    (toolsNode o st).clarification_needed = st.clarification_needed := by
  simp only [toolsNode]; split <;> rfl

lemma toolsNode_ter (o : Oracles) (st : AgentState) :
    (toolsNode o st).tool_execution_results =
      if (regularCalls st.tool_calls).isEmpty then st.tool_execution_results
      else st.tool_execution_results ++
        (runRegularBatch o (regularCalls st.tool_calls)).1 := by
  simp only [toolsNode]; split <;> simp_all

lemma toolsNode_status (o : Oracles) (st : AgentState) :
    (toolsNode o st).validation_status =
      if (regularCalls st.tool_calls).isEmpty then "success"
      else (runRegularBatch o (regularCalls st.tool_calls)).2 := by
  simp only [toolsNode]; split <;> simp_all

lemma text2sqlNode_query (o : Oracles) (st : AgentState) :
    (text2sqlNode o st).query = st.query := by
  simp only [text2sqlNode]; split <;> rfl

lemma text2sqlNode_tool_calls (o : Oracles) (st : AgentState) :
    (text2sqlNode o st).tool_calls = st.tool_calls := by
  simp only [text2sqlNode]; split <;> rfl

lemma text2sqlNode_retry (o : Oracles) (st : AgentState) :
    (text2sqlNode o st).retry_count = st.retry_count := by
  simp only [text2sqlNode]; split <;> rfl

lemma text2sqlNode_cn (o : Oracles) (st : AgentState) :
    (text2sqlNode o st).clarification_needed = st.clarification_needed := by
  simp only [text2sqlNode]; split <;> rfl

lemma text2sqlNode_ter (o : Oracles) (st : AgentState) :
    (text2sqlNode o st).tool_execution_results =
      if (sqlCalls st.tool_calls).isEmpty then st.tool_execution_results
      else st.tool_execution_results ++
        (runSqlBatch o st.query (sqlCalls st.tool_calls)).1 := by
  simp only [text2sqlNode]; split <;> simp_all

lemma text2sqlNode_vstatus (o : Oracles) (st : AgentState) :
    (text2sqlNode o st).validation_status =
      if (sqlCalls st.tool_calls).isEmpty then "success"
      else (runSqlBatch o st.query (sqlCalls st.tool_calls)).2 := by
  simp only [text2sqlNode]; split <;> simp_all

/-- The SQL stage always writes `success` or `tool_error`. -/
lemma text2sqlNode_status_cases (o : Oracles) (st : AgentState) :
    (text2sqlNode o st).validation_status = "success" ∨
      (text2sqlNode o st).validation_status = "tool_error" := by
  rw [text2sqlNode_vstatus]
  split
  · exact Or.inl rfl
  · exact runSqlBatch_status o st.query (sqlCalls st.tool_calls)

/-- Hence the routing after the SQL stage never picks the clarifier. -/
lemma afterText2sql_of_node (o : Oracles) (st : AgentState) :
    afterText2sqlRouting (text2sqlNode o st) = "filter_decision" := by
  unfold afterText2sqlRouting
  rcases text2sqlNode_status_cases o st with h | h <;> simp [h]

lemma clarifierNode_result (st : AgentState) :
    (clarifierNode st).result = clarificationPrompt st.query := rfl

lemma clarifierNode_cn (st : AgentState) :
    (clarifierNode st).clarification_needed = true := rfl

lemma clarifierNode_query (st : AgentState) :
    (clarifierNode st).query = st.query := rfl

lemma resultFilterNode_query (st : AgentState) :
    (resultFilterNode st).query = st.query := by
  simp only [resultFilterNode]; split <;> rfl

lemma resultFilterNode_cn (st : AgentState) :
    (resultFilterNode st).clarification_needed = st.clarification_needed := by
  simp only [resultFilterNode]; split <;> rfl

lemma resultFilterNode_tool_calls (st : AgentState) :
    (resultFilterNode st).tool_calls = st.tool_calls := by
  simp only [resultFilterNode]; split <;> rfl

lemma resultFilterNode_ter (st : AgentState) :
    (resultFilterNode st).tool_execution_results =
      st.tool_execution_results := by
  simp only [resultFilterNode]; split <;> rfl

lemma generationNode_ok (o : Oracles) (st st' : AgentState)
    (h : generationNode o st = .ok st') :
    ∃ ans, o.genReply (generationPrompt st.query (genToolResult st)) = .ok ans ∧
      st' = { st with
                messages := st.messages ++ [(true, ans)], result := ans } := by
  unfold generationNode at h
  cases hg : o.genReply (generationPrompt st.query (genToolResult st)) with
  | ok a =>
      rw [hg] at h
      simp only [Except.map] at h
      exact ⟨a, rfl, (Except.ok.injEq _ _ ▸ h).symm⟩
  | error e => rw [hg] at h; simp [Except.map] at h

/-! ## Stage inversion lemmas -/

lemma runGenStage_ok (o : Oracles) (st st' : AgentState) (tr : List GNode)
    (h : runGenStage o st = .ok (st', tr)) :
    tr = [GNode.generation] ∧ st'.query = st.query ∧
      st'.clarification_needed = st.clarification_needed ∧
      st'.tool_calls = st.tool_calls ∧
      st'.tool_execution_results = st.tool_execution_results ∧
      ∃ ans, o.genReply (generationPrompt st.query (genToolResult st)) =
          .ok ans ∧ st'.result = ans := by
  unfold runGenStage at h
  cases hg : generationNode o st with
  | ok s =>
      rw [hg] at h
      simp only [Except.map, Except.ok.injEq, Prod.mk.injEq] at h
      obtain ⟨ans, hr, hs⟩ := generationNode_ok o st s hg
      subst hs
      refine ⟨h.2.symm, ?_⟩
      rw [← h.1]
      exact ⟨rfl, rfl, rfl, rfl, ans, hr, rfl⟩
  | error e => rw [hg] at h; simp [Except.map] at h

lemma runFilterDecisionStage_ok (o : Oracles) (st st' : AgentState)
    (tr : List GNode) (h : runFilterDecisionStage o st = .ok (st', tr)) :
    (tr = [GNode.filterDecision, GNode.generation] ∨
      tr = [GNode.filterDecision, GNode.resultFilter, GNode.generation]) ∧
      st'.query = st.query ∧
      st'.clarification_needed = st.clarification_needed ∧
      st'.tool_calls = st.tool_calls ∧
      st'.tool_execution_results = st.tool_execution_results ∧
      ∃ p ans, o.genReply p = .ok ans ∧ st'.result = ans := by
  unfold runFilterDecisionStage at h
  split at h
  · cases hg : runGenStage o (resultFilterNode st) with
    | ok pr =>
        rw [hg] at h
        simp only [Except.map, Except.ok.injEq, Prod.mk.injEq] at h
        obtain ⟨htr, hq, hcn, htc, hter, ans, hr, hres⟩ :=
          runGenStage_ok o _ pr.1 pr.2 (by rw [hg])
        obtain ⟨h1, h2⟩ := h
        subst h1
        refine ⟨Or.inr ?_, ?_, ?_, ?_, ?_, _, ans, hr, hres⟩
        · rw [← h2, htr]
        · rw [hq, resultFilterNode_query]
        · rw [hcn, resultFilterNode_cn]
        · rw [htc, resultFilterNode_tool_calls]
        · rw [hter, resultFilterNode_ter]
    | error e => rw [hg] at h; simp [Except.map] at h
  · cases hg : runGenStage o st with
    | ok pr =>
        rw [hg] at h
        simp only [Except.map, Except.ok.injEq, Prod.mk.injEq] at h
        obtain ⟨htr, hq, hcn, htc, hter, ans, hr, hres⟩ :=
          runGenStage_ok o _ pr.1 pr.2 (by rw [hg])
        obtain ⟨h1, h2⟩ := h
        subst h1
        exact ⟨Or.inl (by rw [← h2, htr]), hq, hcn, htc, hter, _, ans, hr, hres⟩
    | error e => rw [hg] at h; simp [Except.map] at h

lemma runText2sqlStage_ok (o : Oracles) (st st' : AgentState)
    (tr : List GNode) (h : runText2sqlStage o st = .ok (st', tr)) :
    (tr = [GNode.text2sql, GNode.filterDecision, GNode.generation] ∨
      tr = [GNode.text2sql, GNode.filterDecision, GNode.resultFilter,
            GNode.generation]) ∧
      st'.query = st.query ∧
      st'.clarification_needed = st.clarification_needed ∧
      st'.tool_calls = st.tool_calls ∧
      st'.tool_execution_results =
        (text2sqlNode o st).tool_execution_results ∧
      ∃ p ans, o.genReply p = .ok ans ∧ st'.result = ans := by
  unfold runText2sqlStage at h
  rw [if_neg (by rw [afterText2sql_of_node]; decide)] at h
  cases hf : runFilterDecisionStage o (text2sqlNode o st) with
  | ok pr =>
      rw [hf] at h
      simp only [Except.map, Except.ok.injEq, Prod.mk.injEq] at h
      obtain ⟨htr, hq, hcn, htc, hter, p, ans, hr, hres⟩ :=
        runFilterDecisionStage_ok o _ pr.1 pr.2 (by rw [hf])
      obtain ⟨h1, h2⟩ := h
      subst h1
      refine ⟨?_, ?_, ?_, ?_, ?_, p, ans, hr, hres⟩
      · rcases htr with htr | htr
        · exact Or.inl (by rw [← h2, htr])
        · exact Or.inr (by rw [← h2, htr])
      · rw [hq, text2sqlNode_query]
      · rw [hcn, text2sqlNode_cn]
      · rw [htc, text2sqlNode_tool_calls]
      · exact hter
  | error e => rw [hf] at h; simp [Except.map] at h

lemma runToolsStage_ok (o : Oracles) (st st' : AgentState) (tr : List GNode)
    (h : runToolsStage o st = .ok (st', tr)) :
    (afterToolsRouting (toolsNode o st) = "clarifier" ∧
      tr = [GNode.tools, GNode.clarifier] ∧
      st' = clarifierNode (toolsNode o st)) ∨
    (afterToolsRouting (toolsNode o st) = "text2sql" ∧
      ∃ tail, tr = GNode.tools :: tail ∧
        runText2sqlStage o (toolsNode o st) = .ok (st', tail)) ∨
    (afterToolsRouting (toolsNode o st) ≠ "clarifier" ∧
      afterToolsRouting (toolsNode o st) ≠ "text2sql" ∧
      ∃ tail, tr = GNode.tools :: tail ∧
        runFilterDecisionStage o (toolsNode o st) = .ok (st', tail)) := by
  unfold runToolsStage contAfterTools at h
  split at h
  · next hc =>
      simp only [Except.map, Except.ok.injEq, Prod.mk.injEq] at h
      exact Or.inl ⟨hc, h.2.symm, h.1.symm⟩
  · next hc =>
      split at h
      · next ht =>
          cases hx : runText2sqlStage o (toolsNode o st) with
          | ok pr =>
              obtain ⟨prs, prt⟩ := pr
              rw [hx] at h
              simp only [Except.map, Except.ok.injEq, Prod.mk.injEq] at h
              obtain ⟨h1, h2⟩ := h
              subst h1; subst h2
              refine Or.inr (Or.inl ⟨ht, prt, rfl, rfl⟩)
          | error e => rw [hx] at h; simp [Except.map] at h
      · next ht =>
          cases hx : runFilterDecisionStage o (toolsNode o st) with
          | ok pr =>
              obtain ⟨prs, prt⟩ := pr
              rw [hx] at h
              simp only [Except.map, Except.ok.injEq, Prod.mk.injEq] at h
              obtain ⟨h1, h2⟩ := h
              subst h1; subst h2
              refine Or.inr (Or.inr ⟨hc, ht, prt, rfl, rfl⟩)
          | error e => rw [hx] at h; simp [Except.map] at h

lemma runParsedStage_ok (o : Oracles) (st st' : AgentState) (tr : List GNode)
    (h : runParsedStage o st = .ok (st', tr)) :
    (shouldContinue st = "tools" ∧ runToolsStage o st = .ok (st', tr)) ∨
    (shouldContinue st ≠ "tools" ∧ shouldContinue st = "text2sql" ∧
      runText2sqlStage o st = .ok (st', tr)) ∨
    (shouldContinue st ≠ "tools" ∧ shouldContinue st ≠ "text2sql" ∧
      runGenStage o st = .ok (st', tr)) := by
  unfold runParsedStage at h
  split at h
  · next hc => exact Or.inl ⟨hc, h⟩
  · next hc =>
      split at h
      · next ht => exact Or.inr (Or.inl ⟨hc, ht, h⟩)
      · next ht => exact Or.inr (Or.inr ⟨hc, ht, h⟩)

lemma exbind_ok {α β γ : Type} (x : Except γ α) (f : α → Except γ β) (b : β)
    (h : x.bind f = .ok b) : ∃ a, x = .ok a ∧ f a = .ok b := by
  cases x with
  | ok a => exact ⟨a, rfl, h⟩
  | error e => simp [Except.bind] at h

lemma exmap_ok {α β γ : Type} (x : Except γ α) (f : α → β) (b : β)
    (h : x.map f = .ok b) : ∃ a, x = .ok a ∧ f a = b := by
  cases x with
  | ok a =>
      simp only [Except.map, Except.ok.injEq] at h
      exact ⟨a, rfl, h⟩
  | error e => simp [Except.map] at h

lemma agentNode_ok (o : Oracles) (st st' : AgentState)
    (h : agentNode o st = .ok st') :
    ∃ reply, o.agentReply = .ok reply ∧
      st' = { st with
                messages := st.messages ++ [(false, st.query), (true, reply)],
                iterations := st.iterations + 1 } := by
  unfold agentNode at h
  cases ha : o.agentReply with
  | ok r =>
      rw [ha] at h
      simp only [Except.map, Except.ok.injEq] at h
      exact ⟨r, rfl, h.symm⟩
  | error e => rw [ha] at h; simp [Except.map] at h

lemma parseNode_ok (st st' : AgentState) (h : parseNode st = .ok st') :
    ∃ calls, parseToolCalls (lastAIContent st.messages) = .ok calls ∧
      st' = { st with tool_calls := calls } := by
  unfold parseNode at h
  cases hp : parseToolCalls (lastAIContent st.messages) with
  | ok calls =>
      rw [hp] at h
      simp only [Except.map, Except.ok.injEq] at h
      exact ⟨calls, rfl, h.symm⟩
  | error e => rw [hp] at h; simp [Except.map] at h

lemma runSearch_ok (o : Oracles) (q : String) (st : AgentState)
    (tr : List GNode) (h : runSearch o q = .ok (st, tr)) :
    ∃ reply calls tail,
      o.agentReply = .ok reply ∧
      parseToolCalls reply = .ok calls ∧
      tr = GNode.agent :: GNode.parse :: tail ∧
      runParsedStage o (postParseState q reply calls) = .ok (st, tail) := by
  unfold runSearch at h
  obtain ⟨st1, ha1, h2⟩ := exbind_ok _ _ _ h
  obtain ⟨st2, hp2, h3⟩ := exbind_ok _ _ _ h2
  obtain ⟨pr, hr3, h4⟩ := exmap_ok _ _ _ h3
  obtain ⟨reply, ha, hst1⟩ := agentNode_ok _ _ _ ha1
  subst hst1
  obtain ⟨calls, hp, hst2⟩ := parseNode_ok _ _ hp2
  subst hst2
  have h4' : pr.1 = st ∧ GNode.agent :: GNode.parse :: pr.2 = tr := by
    simpa [Prod.ext_iff] using h4
  refine ⟨reply, calls, pr.2, ha, hp, h4'.2.symm, ?_⟩
  rw [← h4'.1]
  exact hr3

/-! ## Routing case lemmas -/

lemma isEmpty_false_of_any {α : Type} (l : List α) (p : α → Bool)
    (h : l.any p = true) : l.isEmpty = false := by
  cases l with
  | nil => simp at h
  | cons a t => rfl

lemma shouldContinue_both (st : AgentState)
    (hT : st.tool_calls.any isNameText2sql = true)
    (hR : st.tool_calls.any (fun c => !isNameText2sql c) = true) :
    shouldContinue st = "tools" := by
  unfold shouldContinue
  simp [isEmpty_false_of_any _ _ hT, hT, hR]

lemma afterTools_cases (st : AgentState)
    (hT : st.tool_calls.any isNameText2sql = true) :
    afterToolsRouting st = "clarifier" ∨ afterToolsRouting st = "text2sql" := by
  unfold afterToolsRouting
  split
  · exact Or.inl rfl
  · exact Or.inr rfl

lemma filter_nonempty_of_any {α : Type} (l : List α) (p : α → Bool)
    (h : l.any p = true) : (l.filter p).isEmpty = false := by
  induction l with
  | nil => simp at h
  | cons a t ih =>
      simp only [List.filter_cons]
      cases ha : p a with
      | true => simp [ha]
      | false =>
          rw [if_neg (by simp [ha])]
          simp only [List.any_cons, ha, Bool.false_or] at h
          exact ih h

lemma objGet_objSet_self (es : List (String × Json)) (k : String) (v : Json) :
    objGet (Json.obj (objInsert es k v)) k = some v := by
  induction es with
  | nil => simp [objInsert, objGet, List.find?]
  | cons e rest ih =>
      obtain ⟨k0, v0⟩ := e
      by_cases hk : k0 = k
      · simp [objInsert, hk, objGet, List.find?]
      · simp only [objInsert, if_neg hk]
        have hd : (decide (k0 = k)) = false := by simp [hk]
        simp only [objGet, List.find?] at ih ⊢
        rw [hd]
        exact ih

/-! ## Case-folding transparency of the "all" keywords -/

lemma pyLowerChar_eq_of_high (k c : Char) (hk : 127 < k.toNat) :
    (k == pyLowerChar c) = (k == c) := by
  by_cases hc : ('A' ≤ c ∧ c ≤ 'Z')
  · have hc90 : c.toNat ≤ 90 := hc.2
    have hlow : (pyLowerChar c).toNat = c.toNat + 32 := by
      unfold pyLowerChar
      rw [if_pos (by simp [hc.1, hc.2])]
      have hv : (c.toNat + 32).isValidChar := Or.inl (by omega)
      unfold Char.ofNat
      split
      · rfl
      · contradiction
    have h1 : (k == pyLowerChar c) = false := by
      apply beq_eq_false_iff_ne.mpr
      intro he
      rw [he] at hk
      omega
    have h2 : (k == c) = false := by
      apply beq_eq_false_iff_ne.mpr
      intro he
      rw [he] at hk
      omega
    rw [h1, h2]
  · have : pyLowerChar c = c := by
      unfold pyLowerChar
      rw [if_neg]
      intro hb
      exact hc ⟨by simpa using (Bool.and_elim_left hb),
        by simpa using (Bool.and_elim_right hb)⟩
    rw [this]

lemma isPrefixOf_map_lower (kw cs : List Char)
    (hkw : ∀ c ∈ kw, 127 < c.toNat) :
    kw.isPrefixOf (cs.map pyLowerChar) = kw.isPrefixOf cs := by
  induction kw generalizing cs with
  | nil => cases cs <;> rfl
  | cons k kt ih =>
      cases cs with
      | nil => rfl
      | cons c ct =>
          simp only [List.map_cons, List.isPrefixOf]
          rw [pyLowerChar_eq_of_high k c (hkw k (by simp)),
            ih ct (fun d hd => hkw d (by simp [hd]))]

lemma containsSub_map_lower (kw cs : List Char)
    (hkw : ∀ c ∈ kw, 127 < c.toNat) :
    listContainsSub kw (cs.map pyLowerChar) = listContainsSub kw cs := by
  induction cs with
  | nil => rfl
  | cons c ct ih =>
      simp only [List.map_cons, listContainsSub]
      rw [← List.map_cons, isPrefixOf_map_lower kw (c :: ct) hkw, ih]

/-- The "all" keywords are pure Hangul, so checking them against the
    lowercased query is the same as checking them against the query. -/
lemma hasAllKeyword_eq (q : String) :
    hasAllKeyword q =
      (["모두", "전체", "모든"].any (fun k => strContainsSub q k)) := by
  unfold hasAllKeyword
  simp only [List.any_cons, List.any_nil]
  unfold strContainsSub pyLower
  rw [show (String.mk (q.data.map pyLowerChar)).data = q.data.map pyLowerChar
      from rfl]
  rw [containsSub_map_lower _ _ (by decide),
    containsSub_map_lower _ _ (by decide),
    containsSub_map_lower _ _ (by decide)]

/-! ## Run-level outcome lemma -/

lemma runSearch_outcomes (o : Oracles) (q : String) (st : AgentState)
    (tr : List GNode) (h : runSearch o q = .ok (st, tr)) :
    GenOutcome o st tr ∨ ClarOutcome q st tr := by
  obtain ⟨reply, calls, tail, ha, hp, htr, hrun⟩ := runSearch_ok o q st tr h
  subst htr
  have hppcn : (postParseState q reply calls).clarification_needed = false :=
    rfl
  have hppq : (postParseState q reply calls).query = q := rfl
  rcases runParsedStage_ok o _ st tail hrun with ⟨_, htools⟩ |
    ⟨_, _, ht2s⟩ | ⟨_, _, hgen⟩
  · rcases runToolsStage_ok o _ st tail htools with
      ⟨_, htail, hstate⟩ | ⟨_, tail2, htl, ht2⟩ | ⟨_, _, tail2, htl, hfd⟩
    · subst htail; subst hstate
      refine Or.inr ⟨by decide, by decide, clarifierNode_cn _, ?_⟩
      rw [clarifierNode_result, toolsNode_query, hppq]
    · subst htl
      obtain ⟨hsh, hq, hcn, _, _, p, ans, hgr, hres⟩ :=
        runText2sqlStage_ok o _ st tail2 ht2
      refine Or.inl ⟨?_, ?_, ?_, p, ans, hgr, hres⟩
      · rcases hsh with hsh | hsh <;> subst hsh <;> decide
      · rcases hsh with hsh | hsh <;> subst hsh <;> decide
      · rw [hcn, toolsNode_cn, hppcn]
    · subst htl
      obtain ⟨hsh, hq, hcn, _, _, p, ans, hgr, hres⟩ :=
        runFilterDecisionStage_ok o _ st tail2 hfd
      refine Or.inl ⟨?_, ?_, ?_, p, ans, hgr, hres⟩
      · rcases hsh with hsh | hsh <;> subst hsh <;> decide
      · rcases hsh with hsh | hsh <;> subst hsh <;> decide
      · rw [hcn, toolsNode_cn, hppcn]
  · obtain ⟨hsh, hq, hcn, _, _, p, ans, hgr, hres⟩ :=
      runText2sqlStage_ok o _ st tail ht2s
    refine Or.inl ⟨?_, ?_, ?_, p, ans, hgr, hres⟩
    · rcases hsh with hsh | hsh <;> subst hsh <;> decide
    · rcases hsh with hsh | hsh <;> subst hsh <;> decide
    · rw [hcn, hppcn]
  · obtain ⟨hsh, hq, hcn, _, _, ans, hgr, hres⟩ :=
      runGenStage_ok o _ st tail hgen
    subst hsh
    exact Or.inl ⟨by decide, by decide, by rw [hcn, hppcn],
      _, ans, hgr, hres⟩

/-! # Claim theorems -/

/-- C1 (code-bug evaluation): the spec's call-parser contract demands that
    `_parse_tool_calls` never raise, but on a labeled call whose `args` is a
    JSON object the pass-1 record keeps the object un-flattened and the
    de-duplication step raises `TypeError: unhashable type: 'dict'` when it
    hashes the `(name, args)` identifier tuple.  The embedding evaluates the
    parser at that input to the modeled raise. -/
theorem parse_tool_calls_raises_on_object_args :
    parseToolCalls c1FailingInput = .error (unhashableMsg "dict") := by rfl

/-- C7 counterexample: on a labeled call with numeric `args` the parser
    returns a record whose `args` field is the JSON number `5`, not a
    string, so not every returned record has a string-valued `args` and not
    every pass normalizes `args`. -/
theorem parser_returns_non_string_args :
    parseToolCalls c7Input =
      .ok [Json.obj [("name", Json.str "x"), ("args", Json.num "5")]] ∧
    argsIsString (Json.obj [("name", Json.str "x"), ("args", Json.num "5")]) =
      false := ⟨rfl, rfl⟩

/-- C7 (amended): only the fourth extraction pass flattens object-valued
    `args`: a pass-4 parsed object whose `args` is a JSON object gets its
    `args` replaced by a string (built from `종목명` and `날짜` when both are
    present), so pass-4 records never carry object-valued `args`; the other
    passes append `args` exactly as parsed, so a returned record's `args`
    may be a non-string scalar (and an object-valued `args` surviving via
    pass 1 or 2 makes the parser raise at de-duplication, see C1). -/
theorem pass4_flattens_object_args (m : String) (tc : Json)
    (kvs : List (String × Json))
    (hload : jsonLoads (pyStrip m) = some tc)
    (hname : objHasKey tc "name" = true)
    (hargs : objGet tc "args" = some (Json.obj kvs)) :
    pass4Record m =
      some (objSet tc "args" (Json.str (flattenArgsObj (Json.obj kvs)))) ∧
    argsIsString (objSet tc "args" (Json.str (flattenArgsObj (Json.obj kvs))))
      = true ∧
    (∀ nm dt, objGet (Json.obj kvs) "종목명" = some nm →
        objGet (Json.obj kvs) "날짜" = some dt →
        flattenArgsObj (Json.obj kvs) =
          pyStrVal nm ++ "의 " ++ pyStrVal dt ++ " 시가는?") := by
  have hhk : objHasKey tc "args" = true := by simp [objHasKey, hargs]
  refine ⟨?_, ?_, ?_⟩
  · simp [pass4Record, hload, hname, hhk, hargs]
  · cases tc with
    | obj es => simp [objSet, argsIsString, objGet_objSet_self]
    | null => simp [objGet] at hargs
    | bool b => simp [objGet] at hargs
    | num l => simp [objGet] at hargs
    | str s => simp [objGet] at hargs
    | arr xs => simp [objGet] at hargs
  · intro nm dt hnm hdt
    have h1 : objHasKey (Json.obj kvs) "종목명" = true := by
      simp [objHasKey, hnm]
    have h2 : objHasKey (Json.obj kvs) "날짜" = true := by
      simp [objHasKey, hdt]
    simp [flattenArgsObj, h1, h2, hnm, hdt, pyStrOpt]

/-- C7 witness: the spec's own P3 example, end to end — a bare object with
    `args` `{"종목명": "삼성전자", "날짜": "2024-11-06"}` is flattened by
    pass 4 into the composed question string, and the whole parser returns
    exactly that normalized record. -/
theorem pass4_flattens_object_args_witness :
    (jsonLoads (pyStrip c7wInput) = some c7wObj ∧
      objHasKey c7wObj "name" = true ∧
      objGet c7wObj "args" = some (Json.obj c7wKvs)) ∧
    pass4Record c7wInput =
      some (objSet c7wObj "args"
        (Json.str (flattenArgsObj (Json.obj c7wKvs)))) ∧
    flattenArgsObj (Json.obj c7wKvs) = "삼성전자의 2024-11-06 시가는?" ∧
    parseToolCalls c7wInput =
      .ok [Json.obj [("name", Json.str "get_stock_price"),
                     ("args", Json.str "삼성전자의 2024-11-06 시가는?")]] := by
  refine ⟨⟨rfl, rfl, rfl⟩, ?_, rfl, rfl⟩
  exact (pass4_flattens_object_args c7wInput c7wObj c7wKvs rfl rfl rfl).1

/-- C9 counterexample: for the reply `{"a": "}"}` the first balanced-brace
    span is `{"a": "}`, which fails to decode; `_extract_parameters` then
    returns the empty mapping without attempting the entire trimmed reply,
    although that entire reply decodes fine — so the claimed second attempt
    does not happen and "both attempts fail" is not required for `{}`. -/
theorem extract_parameters_skips_whole_reply_fallback :
    extractParameters c9Reply = Json.obj [] ∧
    braceSearch (pyStrip c9Reply) = some c9Span ∧
    jsonLoads c9Span = none ∧
    jsonLoads (pyStrip c9Reply) = some (Json.obj [("a", Json.str "\x7d")]) :=
  ⟨rfl, rfl, rfl, rfl⟩

/-- C9 (amended): the parameter extractor never raises (it is total); it
    decodes the first balanced-brace span of the stripped reply when one
    exists, with any decode failure yielding the empty mapping directly, and
    it decodes the entire trimmed reply only when no balanced-brace span is
    found, a failure there also yielding the empty mapping. -/
theorem extract_parameters_amended (reply : String) :
    (∀ span, braceSearch (pyStrip reply) = some span →
        extractParameters reply = (jsonLoads span).getD (Json.obj [])) ∧
    (braceSearch (pyStrip reply) = none →
        extractParameters reply =
          (jsonLoads (pyStrip reply)).getD (Json.obj [])) := by
  constructor
  · intro span h
    simp only [extractParameters, h]
    cases jsonLoads span <;> rfl
  · intro h
    simp only [extractParameters, h]
    cases jsonLoads (pyStrip reply) <;> rfl

/-- C9 witness: a reply holding one JSON object is located and decoded. -/
theorem extract_parameters_amended_witness :
    braceSearch (pyStrip c9wReply) = some c9wSpan ∧
    extractParameters c9wReply = (jsonLoads c9wSpan).getD (Json.obj []) ∧
    extractParameters c9wReply = Json.obj [("date", Json.str "2025-09-15")] :=
  ⟨rfl, (extract_parameters_amended c9wReply).1 c9wSpan rfl, rfl⟩

/-- C5: the structured stage records exactly one result entry per call, in
    order (`execEntry` inlines a raising handler's exception as
    `{name} 오류: {e}` without aborting the rest), and a batch of three
    calls whose second raises yields precisely the three expected entries,
    the second call classifying `tool_error`. -/
theorem tools_batch_fault_isolation (o : Oracles) :
    (∀ calls : List Json,
        (runRegularBatch o calls).1 = calls.map (execEntry o) ∧
        (runRegularBatch o calls).1.length = calls.length) ∧
    (∀ ca cb cc : Json, ∀ n1 n2 n3 r1 r3 e : String,
        callName ca = some (Json.str n1) → toolNames.contains n1 = true →
        o.exec n1 (callArgsD ca) = .ok r1 →
        callName cb = some (Json.str n2) → toolNames.contains n2 = true →
        o.exec n2 (callArgsD cb) = .error e →
        callName cc = some (Json.str n3) → toolNames.contains n3 = true →
        o.exec n3 (callArgsD cc) = .ok r3 →
        (runRegularBatch o [ca, cb, cc]).1 =
          [n1 ++ " 결과: " ++ r1, n2 ++ " 오류: " ++ e,
           n3 ++ " 결과: " ++ r3] ∧
        classifyCall o cb = "tool_error") := by
  constructor
  · intro calls
    refine ⟨runRegularBatch_results o calls, ?_⟩
    rw [runRegularBatch_results]
    simp
  · intro ca cb cc n1 n2 n3 r1 r3 e h1n h1t h1x h2n h2t h2x h3n h3t h3x
    have hm1 : n1 ∈ toolNames := by simpa using h1t
    have hm2 : n2 ∈ toolNames := by simpa using h2t
    have hm3 : n3 ∈ toolNames := by simpa using h3t
    constructor
    · rw [runRegularBatch_results]
      simp [execEntry, h1n, h1t, h1x, h2n, h2t, h2x, h3n, h3t, h3x,
        hm1, hm2, hm3]
    · simp [classifyCall, h2n, h2t, h2x, hm2]

/-- C5 witness: a concrete three-call batch whose second handler raises. -/
theorem tools_batch_fault_isolation_witness :
    (callName c5c1 = some (Json.str "get_stock_price") ∧
     toolNames.contains "get_stock_price" = true ∧
     c5Oracle.exec "get_stock_price" (callArgsD c5c1) = .ok "정상 결과" ∧
     callName c5c2 = some (Json.str "get_market_index") ∧
     toolNames.contains "get_market_index" = true ∧
     c5Oracle.exec "get_market_index" (callArgsD c5c2) =
        .error "db 연결 오류" ∧
     callName c5c3 = some (Json.str "search_company") ∧
     toolNames.contains "search_company" = true ∧
     c5Oracle.exec "search_company" (callArgsD c5c3) = .ok "정상 결과") ∧
    ((runRegularBatch c5Oracle [c5c1, c5c2, c5c3]).1 =
      ["get_stock_price 결과: 정상 결과",
       "get_market_index 오류: db 연결 오류",
       "search_company 결과: 정상 결과"] ∧
     classifyCall c5Oracle c5c2 = "tool_error") := by
  refine ⟨⟨rfl, rfl, rfl, rfl, rfl, rfl, rfl, rfl, rfl⟩, ?_⟩
  exact (tools_batch_fault_isolation c5Oracle).2 c5c1 c5c2 c5c3
    "get_stock_price" "get_market_index" "search_company"
    "정상 결과" "정상 결과" "db 연결 오류"
    rfl rfl rfl rfl rfl rfl rfl rfl rfl

/-- C6 counterexample: a two-call batch whose first call classifies
    `param_missing` (marker phrase) and whose second call succeeds ends with
    batch status `param_missing` — the most recent call's classification
    (`success`) does not override the earlier one, refuting
    last-writer-wins. -/
theorem batch_status_not_last_writer_wins :
    (runRegularBatch c6Oracle [c6c1, c6c2]).2 = "param_missing" ∧
    classifyCall c6Oracle c6c2 = "success" ∧
    ("param_missing" : String) ≠ "success" := ⟨rfl, rfl, by decide⟩

/-- C6 (amended): the batch's `validation_status` is sticky, not
    last-writer-wins: a call classifying `success` leaves the accumulated
    status unchanged, while `param_missing` and `tool_error` overwrite it —
    so the final status is the classification of the most recent call whose
    classification is not `success` (and `success` only when every call
    classified `success`). -/
theorem batch_status_last_non_success (o : Oracles) (calls : List Json) :
    (runRegularBatch o calls).2 =
      lastNonSuccess (calls.map (classifyCall o)) :=
  runRegularBatch_status o calls

/-- C8: the result filter's display limit is determined exactly as claimed —
    with an "all" keyword (`모두`/`전체`/`모든`, equivalently checked on the
    lowercased query) nothing is filtered; else an explicit `N개` numeral
    becomes the limit; else a stock-like line count above 100 is capped at
    100; else nothing is filtered.  When the limit bites, the result becomes
    the headers plus the first `limit` stock-like lines plus the
    count-disclosure suffix, so 150 entity lines yield exactly 100 plus the
    suffix. -/
theorem result_filter_limit_behavior (st : AgentState) :
    (hasAllKeyword st.query =
      (["모두", "전체", "모든"].any (fun k => strContainsSub st.query k))) ∧
    (hasAllKeyword st.query = true → resultFilterNode st = st) ∧
    (hasAllKeyword st.query = false →
      (∀ k, searchNGae st.query.data = some k →
        (((filterLines st.result).filter stockLikeLine).length ≤ k →
            resultFilterNode st = st) ∧
        (k < ((filterLines st.result).filter stockLikeLine).length →
            (resultFilterNode st).result = truncatedResult st.result k)) ∧
      (searchNGae st.query.data = none →
        (((filterLines st.result).filter stockLikeLine).length ≤ 100 →
            resultFilterNode st = st) ∧
        (100 < ((filterLines st.result).filter stockLikeLine).length →
          (resultFilterNode st).result = truncatedResult st.result 100 ∧
          (((filterLines st.result).filter stockLikeLine).take 100).length
              = 100 ∧
          truncatedResult st.result 100 =
            pyJoin "\n"
              (((filterLines st.result).filter (fun l =>
                  !((filterLines st.result).filter stockLikeLine).contains l)
                ++ ((filterLines st.result).filter stockLikeLine).take
                    100).map String.mk) ++
              "\n\n... 등 총 " ++
              toString ((filterLines st.result).filter stockLikeLine).length
              ++ "개 종목이 있습니다."))) := by
  refine ⟨hasAllKeyword_eq st.query, ?_, ?_⟩
  · intro hkw
    have hfl : filterLimit st.query
        ((filterLines st.result).filter stockLikeLine).length =
        (false, ((filterLines st.result).filter stockLikeLine).length) := by
      unfold filterLimit
      rw [if_pos hkw]
    simp only [resultFilterNode, hfl]
    rw [if_neg (by simp)]
  · intro hkw
    constructor
    · intro k hk
      have hfl : filterLimit st.query
          ((filterLines st.result).filter stockLikeLine).length =
          (true, k) := by
        unfold filterLimit
        rw [if_neg (by simp [hkw]), hk]
      constructor
      · intro hle
        simp only [resultFilterNode, hfl]
        rw [if_neg (by simp; omega)]
      · intro hgt
        simp only [resultFilterNode, hfl]
        rw [if_pos (by simp [hgt])]
    · intro hns
      constructor
      · intro hle
        have hn100 : ¬((filterLines st.result).filter
            stockLikeLine).length > 100 := by omega
        have hfl : filterLimit st.query
            ((filterLines st.result).filter stockLikeLine).length =
            (false, ((filterLines st.result).filter stockLikeLine).length)
            := by
          unfold filterLimit
          rw [if_neg (by simp [hkw]), hns, if_neg (by simpa using hn100)]
        simp only [resultFilterNode, hfl]
        rw [if_neg (by simp)]
      · intro hgt
        have hfl : filterLimit st.query
            ((filterLines st.result).filter stockLikeLine).length =
            (true, 100) := by
          unfold filterLimit
          rw [if_neg (by simp [hkw]), hns, if_pos (by simpa using hgt)]
        refine ⟨?_, by simp [List.length_take]; omega, by rfl⟩
        simp only [resultFilterNode, hfl]
        rw [if_pos (by simp [hgt])]

/-- C8 witness: 150 entity-like lines and a keyword-free query produce the
    truncated result, whose kept stock-like portion has exactly 100 lines. -/
theorem result_filter_limit_behavior_witness :
    (hasAllKeyword c8State.query = false ∧
     searchNGae c8State.query.data = none ∧
     100 < ((filterLines c8State.result).filter stockLikeLine).length) ∧
    (resultFilterNode c8State).result = truncatedResult c8State.result 100 ∧
    ((filterLines c8State.result).filter stockLikeLine).length = 150 := by
  have hlen : ((filterLines c8State.result).filter stockLikeLine).length =
      150 := by decide
  have h100 : 100 <
      ((filterLines c8State.result).filter stockLikeLine).length := by
    rw [hlen]; omega
  refine ⟨⟨rfl, rfl, h100⟩, ?_, hlen⟩
  exact ((((result_filter_limit_behavior c8State).2.2 rfl).2 rfl).2 h100).1

/-- C2: every run started through the public `search` entry point ends in
    exactly one of three ways — an answer produced by the generation stage,
    the clarification prompt with `clarification_needed` set, or a caught
    top-level exception converted into the error-shaped answer — and no
    single run visits both the clarifier and the generation stage. -/
theorem search_exclusive_outcomes (o : Oracles) (q : String) :
    ((∃ e, runSearch o q = .error e ∧ searchFn o q = errorAnswer e) ∨
     (∃ st tr, runSearch o q = .ok (st, tr) ∧ searchFn o q = st.result ∧
        (GenOutcome o st tr ∨ ClarOutcome q st tr))) ∧
    (∀ st tr, runSearch o q = .ok (st, tr) →
        ¬(GNode.generation ∈ tr ∧ GNode.clarifier ∈ tr)) := by
  constructor
  · cases hrs : runSearch o q with
    | error e =>
        exact Or.inl ⟨e, rfl, by simp [searchFn, hrs]⟩
    | ok pr =>
        obtain ⟨prs, prt⟩ := pr
        exact Or.inr ⟨prs, prt, rfl, by simp [searchFn, hrs],
          runSearch_outcomes o q prs prt hrs⟩
  · intro st tr h hboth
    rcases runSearch_outcomes o q st tr h with hg | hc
    · exact hg.2.1 hboth.2
    · exact hc.2.1 hboth.1

/-- C2 witness: a concrete no-tool run ends at the generation stage only. -/
theorem search_exclusive_outcomes_witness :
    runSearch c2Oracle c2Query = .ok (c2RunPair.1, c2RunPair.2) ∧
    ¬(GNode.generation ∈ c2RunPair.2 ∧ GNode.clarifier ∈ c2RunPair.2) ∧
    c2RunPair.2 = [GNode.agent, GNode.parse, GNode.generation] := by
  refine ⟨rfl, ?_, rfl⟩
  exact (search_exclusive_outcomes c2Oracle c2Query).2 c2RunPair.1
    c2RunPair.2 rfl

/-- C3: when the parsed call list holds both an ordinary call and a
    `text2sql` call, the run's trace visits `tools` right after parsing
    (never `text2sql` first); unless the tools stage clarifies, the trace
    continues `tools → text2sql → filter_decision → … → generation` and the
    accumulated tool output is the structured batch's entries followed by
    the SQL batch's entries, which is exactly the concatenation the
    generation stage receives. -/
theorem structured_before_sql (o : Oracles) (q : String) (st : AgentState)
    (tr : List GNode) (h : runSearch o q = .ok (st, tr))
    (hT : st.tool_calls.any isNameText2sql = true)
    (hR : st.tool_calls.any (fun c => !isNameText2sql c) = true) :
    tr = [GNode.agent, GNode.parse, GNode.tools, GNode.clarifier] ∨
    ((tr = [GNode.agent, GNode.parse, GNode.tools, GNode.text2sql,
            GNode.filterDecision, GNode.generation] ∨
      tr = [GNode.agent, GNode.parse, GNode.tools, GNode.text2sql,
            GNode.filterDecision, GNode.resultFilter, GNode.generation]) ∧
      st.tool_execution_results =
        (runRegularBatch o (regularCalls st.tool_calls)).1 ++
          (runSqlBatch o q (sqlCalls st.tool_calls)).1 ∧
      genToolResult st =
        pyJoin "\n\n" ((runRegularBatch o (regularCalls st.tool_calls)).1 ++
          (runSqlBatch o q (sqlCalls st.tool_calls)).1)) := by
  obtain ⟨reply, calls, tail, ha, hp, htr, hrun⟩ := runSearch_ok o q st tr h
  subst htr
  rcases runParsedStage_ok o _ st tail hrun with ⟨hsc, htools⟩ |
    ⟨hsc1, hsc2, ht2s⟩ | ⟨hsc1, hsc2, hgen⟩
  · rcases runToolsStage_ok o _ st tail htools with ⟨_, htail, _⟩ |
      ⟨_, tail2, htl, ht2⟩ | ⟨hnc, hnt, tail2, htl, hfd⟩
    · subst htail
      exact Or.inl rfl
    · subst htl
      obtain ⟨hsh, hq2, hcn2, htc2, hter2, _⟩ :=
        runText2sqlStage_ok o _ st tail2 ht2
      have hcalls : st.tool_calls = calls := by
        rw [htc2, toolsNode_tool_calls]
        rfl
      rw [hcalls] at hT hR ⊢
      have hTsql : (sqlCalls calls).isEmpty = false :=
        filter_nonempty_of_any _ _ hT
      have hRreg : (regularCalls calls).isEmpty = false :=
        filter_nonempty_of_any _ _ hR
      have hterTools : (toolsNode o
          (postParseState q reply calls)).tool_execution_results =
          (runRegularBatch o (regularCalls calls)).1 := by
        rw [toolsNode_ter]
        rw [show (postParseState q reply calls).tool_calls = calls from rfl]
        rw [if_neg (by simp [hRreg])]
        rw [show (postParseState q reply
          calls).tool_execution_results = [] from rfl]
        rfl
      have hterFinal : st.tool_execution_results =
          (runRegularBatch o (regularCalls calls)).1 ++
            (runSqlBatch o q (sqlCalls calls)).1 := by
        rw [hter2, text2sqlNode_ter, toolsNode_tool_calls]
        rw [show (postParseState q reply calls).tool_calls = calls from rfl]
        rw [if_neg (by simp [hTsql])]
        rw [hterTools, toolsNode_query]
        rfl
      have hne : ((runRegularBatch o (regularCalls calls)).1 ++
          (runSqlBatch o q (sqlCalls calls)).1).isEmpty = false := by
        rw [runRegularBatch_results]
        cases hcl : regularCalls calls with
        | nil => rw [hcl] at hRreg; simp at hRreg
        | cons a l => simp
      refine Or.inr ⟨?_, hterFinal, ?_⟩
      · rcases hsh with hsh | hsh <;> subst hsh
        · exact Or.inl rfl
        · exact Or.inr rfl
      · rw [genToolResult, hterFinal]
        rw [if_pos (by simp [hne])]
    · obtain ⟨_, _, _, htc3, _, _⟩ :=
        runFilterDecisionStage_ok o _ st tail2 hfd
      have hcalls : st.tool_calls = calls := by
        rw [htc3, toolsNode_tool_calls]
        rfl
      rw [hcalls] at hT
      rcases afterTools_cases (toolsNode o (postParseState q reply calls))
          (by rw [toolsNode_tool_calls]; exact hT) with hx | hx
      · exact absurd hx hnc
      · exact absurd hx hnt
  · obtain ⟨_, _, _, htc, _, _⟩ := runText2sqlStage_ok o _ st tail ht2s
    have hcalls : st.tool_calls = calls := htc
    rw [hcalls] at hT hR
    exact absurd (shouldContinue_both (postParseState q reply calls) hT hR)
      hsc1
  · obtain ⟨_, _, _, htc, _, _⟩ := runGenStage_ok o _ st tail hgen
    have hcalls : st.tool_calls = calls := htc
    rw [hcalls] at hT hR
    exact absurd (shouldContinue_both (postParseState q reply calls) hT hR)
      hsc1

/-- C3 witness: a concrete run with one ordinary and one `text2sql` call
    visits tools before text2sql and concatenates the structured result
    before the SQL result. -/
theorem structured_before_sql_witness :
    (runSearch c3Oracle c3Query = .ok (c3RunPair.1, c3RunPair.2) ∧
     c3RunPair.1.tool_calls.any isNameText2sql = true ∧
     c3RunPair.1.tool_calls.any (fun c => !isNameText2sql c) = true) ∧
    (c3RunPair.2 = [GNode.agent, GNode.parse, GNode.tools,
        GNode.clarifier] ∨
     ((c3RunPair.2 = [GNode.agent, GNode.parse, GNode.tools, GNode.text2sql,
          GNode.filterDecision, GNode.generation] ∨
       c3RunPair.2 = [GNode.agent, GNode.parse, GNode.tools, GNode.text2sql,
          GNode.filterDecision, GNode.resultFilter, GNode.generation]) ∧
      c3RunPair.1.tool_execution_results =
        (runRegularBatch c3Oracle (regularCalls c3RunPair.1.tool_calls)).1 ++
          (runSqlBatch c3Oracle c3Query
            (sqlCalls c3RunPair.1.tool_calls)).1 ∧
      genToolResult c3RunPair.1 =
        pyJoin "\n\n"
          ((runRegularBatch c3Oracle
              (regularCalls c3RunPair.1.tool_calls)).1 ++
            (runSqlBatch c3Oracle c3Query
              (sqlCalls c3RunPair.1.tool_calls)).1))) ∧
    c3RunPair.1.tool_execution_results =
      ["get_stock_price 결과: 가격 51000", "text2sql 결과: 평균 0.5"] := by
  refine ⟨⟨rfl, rfl, rfl⟩, ?_, rfl⟩
  exact structured_before_sql c3Oracle c3Query c3RunPair.1 c3RunPair.2
    rfl rfl rfl

/-- C4: after an execution stage with `validation_status = param_missing`,
    a retry count of 0 or 1 routes to the clarifier (from both execution
    stages), while a retry count of 2 or more routes onward — the
    post-SQL router picks `filter_decision`, the post-tools router picks
    `text2sql` or `filter_decision`, and the continued run from the tools
    router reaches the generation stage without ever visiting the
    clarifier, even though the status is still `param_missing`. -/
theorem clarification_gating (st : AgentState)
    (hv : st.validation_status = "param_missing") :
    (st.retry_count < 2 →
      afterToolsRouting st = "clarifier" ∧
        afterText2sqlRouting st = "clarifier") ∧
    (2 ≤ st.retry_count →
      afterText2sqlRouting st = "filter_decision" ∧
      (afterToolsRouting st = "text2sql" ∨
        afterToolsRouting st = "filter_decision") ∧
      (∀ o st2 tr, contAfterTools o st = .ok (st2, tr) →
        GNode.clarifier ∉ tr ∧ GNode.generation ∈ tr)) := by
  constructor
  · intro hlt
    constructor
    · unfold afterToolsRouting
      rw [if_pos (by simp [hv, hlt])]
    · unfold afterText2sqlRouting
      rw [if_pos (by simp [hv, hlt])]
  · intro hge
    have hlt2 : ¬st.retry_count < 2 := by omega
    have hnc : afterToolsRouting st ≠ "clarifier" := by
      unfold afterToolsRouting
      rw [if_neg (by simp [hlt2])]
      split <;> decide
    refine ⟨?_, ?_, ?_⟩
    · unfold afterText2sqlRouting
      rw [if_neg (by simp [hlt2])]
    · unfold afterToolsRouting
      rw [if_neg (by simp [hlt2])]
      split
      · exact Or.inl rfl
      · exact Or.inr rfl
    · intro o st2 tr hct
      unfold contAfterTools at hct
      rw [if_neg hnc] at hct
      split at hct
      · obtain ⟨hsh, _⟩ := runText2sqlStage_ok o st st2 tr hct
        rcases hsh with hsh | hsh <;> subst hsh <;>
          exact ⟨by decide, by decide⟩
      · obtain ⟨hsh, _⟩ := runFilterDecisionStage_ok o st st2 tr hct
        rcases hsh with hsh | hsh <;> subst hsh <;>
          exact ⟨by decide, by decide⟩

/-- C4 witness: with `param_missing` and retry 0 the router clarifies; with
    retry 2 it proceeds and a concrete continued run reaches generation
    without the clarifier. -/
theorem clarification_gating_witness :
    (c4StateA.validation_status = "param_missing" ∧
     c4StateA.retry_count < 2 ∧ afterToolsRouting c4StateA = "clarifier") ∧
    (c4StateB.validation_status = "param_missing" ∧
     2 ≤ c4StateB.retry_count ∧
     afterText2sqlRouting c4StateB = "filter_decision" ∧
     contAfterTools c4Oracle c4StateB = .ok (c4RunPair.1, c4RunPair.2) ∧
     GNode.clarifier ∉ c4RunPair.2 ∧ GNode.generation ∈ c4RunPair.2) := by
  refine ⟨⟨rfl, by decide, ?_⟩, rfl, by decide, ?_, rfl, ?_, ?_⟩
  · exact ((clarification_gating c4StateA rfl).1 (by decide)).1
  · exact ((clarification_gating c4StateB rfl).2 (by decide)).1
  · exact (((clarification_gating c4StateB rfl).2 (by decide)).2.2 c4Oracle
      c4RunPair.1 c4RunPair.2 rfl).1
  · exact (((clarification_gating c4StateB rfl).2 (by decide)).2.2 c4Oracle
      c4RunPair.1 c4RunPair.2 rfl).2

/-- C10: the SQL stage writes only `success` or `tool_error` (never
    `param_missing`), so the routing after it always picks
    `filter_decision` — the clarifier branch after the SQL stage is dead —
    and consequently every run that visits the clarifier got there through
    the structured-tool stage (its trace is exactly
    agent → parse → tools → clarifier). -/
theorem sql_stage_never_clarifies :
    (∀ (o : Oracles) (st : AgentState),
        (text2sqlNode o st).validation_status = "success" ∨
        (text2sqlNode o st).validation_status = "tool_error") ∧
    (∀ (o : Oracles) (st : AgentState),
        afterText2sqlRouting (text2sqlNode o st) = "filter_decision") ∧
    (∀ (o : Oracles) (q : String) (st : AgentState) (tr : List GNode),
        runSearch o q = .ok (st, tr) → GNode.clarifier ∈ tr →
        tr = [GNode.agent, GNode.parse, GNode.tools, GNode.clarifier]) := by
  refine ⟨text2sqlNode_status_cases, afterText2sql_of_node, ?_⟩
  intro o q st tr h hmem
  obtain ⟨reply, calls, tail, ha, hp, htr, hrun⟩ := runSearch_ok o q st tr h
  subst htr
  rcases runParsedStage_ok o _ st tail hrun with ⟨_, htools⟩ |
    ⟨_, _, ht2s⟩ | ⟨_, _, hgen⟩
  · rcases runToolsStage_ok o _ st tail htools with ⟨_, htail, _⟩ |
      ⟨_, tail2, htl, ht2⟩ | ⟨_, _, tail2, htl, hfd⟩
    · subst htail; rfl
    · subst htl
      obtain ⟨hsh, _⟩ := runText2sqlStage_ok o _ st tail2 ht2
      rcases hsh with hsh | hsh <;> subst hsh <;>
        exact absurd hmem (by decide)
    · subst htl
      obtain ⟨hsh, _⟩ := runFilterDecisionStage_ok o _ st tail2 hfd
      rcases hsh with hsh | hsh <;> subst hsh <;>
        exact absurd hmem (by decide)
  · obtain ⟨hsh, _⟩ := runText2sqlStage_ok o _ st tail ht2s
    rcases hsh with hsh | hsh <;> subst hsh <;>
      exact absurd hmem (by decide)
  · obtain ⟨hsh, _⟩ := runGenStage_ok o _ st tail hgen
    subst hsh
    exact absurd hmem (by decide)

/-- C10 witness: a concrete clarifying run reached the clarifier from the
    tools stage. -/
theorem sql_stage_never_clarifies_witness :
    (runSearch c10Oracle c10Query = .ok (c10RunPair.1, c10RunPair.2) ∧
     GNode.clarifier ∈ c10RunPair.2) ∧
    c10RunPair.2 = [GNode.agent, GNode.parse, GNode.tools,
      GNode.clarifier] := by
  refine ⟨⟨rfl, by decide⟩, ?_⟩
  exact sql_stage_never_clarifies.2.2 c10Oracle c10Query c10RunPair.1
    c10RunPair.2 rfl (by decide)

end FlowAgent
